import Mathlib

/- Verification development for the Disway.id RSS scraper
   (src/disway_rss_scraper.py).

   Modelling conventions of the shallow embedding:
   * Instants of time are modelled as `Int` values counting minutes since an
     arbitrary epoch.  The script manipulates `datetime` values and compares
     their ISO-8601 renderings lexicographically, which agrees with the
     chronological order of the underlying instants; the synthetic publish
     timestamps are produced by `now + timedelta(minutes=i)`, i.e. in whole
     minutes, so minute granularity is exact for the reconciler.
     `FEED_MAX_AGE_HOURS = 3` becomes 180 minutes and `SEEN_MAX_AGE_DAYS = 30`
     becomes 43200 minutes.
   * Python dicts (the seen-state file and the map of prior feed items) are
     modelled as association lists in insertion order; `insertA` mirrors
     `d[k] = v` (replace in place, else append) and `lookupA` mirrors `d[k]`
     / `k in d`.
   * The network (`requests`), the HTML extractor (`BeautifulSoup` heuristics)
     and `hashlib.md5`/`json` are external collaborators: they enter the model
     as function parameters (`attempt`, `fetchArticle`, `md5hex`, `parseJson`).
   * Fallible steps return `Option`. -/

set_option autoImplicit false

namespace Disway

/- ======================================================================
   Generic list kit: association lists (Python dict model) and a substring
   splitter mirroring leftmost regex matching.
   ====================================================================== -/

/-- Lookup in an association list: Python `d.get(k)` / `d[k]` / `k in d`. -/
def lookupA {α : Type} : List (String × α) → String → Option α
  | [], _ => none
  | p :: rest, k => if p.1 = k then some p.2 else lookupA rest k

/-- Insertion `d[k] = v` on a Python dict: replace in place, else append. -/
def insertA {α : Type} : List (String × α) → String → α → List (String × α)
  | [], k, v => [(k, v)]
  | p :: rest, k, v => if p.1 = k then (k, v) :: rest else p :: insertA rest k v

/-- Split a character list at the leftmost occurrence of `pat`, returning the
part before the occurrence and the part after it.  This is the semantics of a
leftmost (non-greedy) regex search for a literal pattern. -/
def findSplit (pat : List Char) : List Char → Option (List Char × List Char)
  | [] => if pat.isPrefixOf ([] : List Char) then some ([], []) else none
  | c :: cs =>
    if pat.isPrefixOf (c :: cs) then some ([], (c :: cs).drop pat.length)
    else (findSplit pat cs).map (fun p => (c :: p.1, p.2))

/-- `pat` occurs as a contiguous substring of `s`. -/
def containsPat (pat s : List Char) : Bool := (findSplit pat s).isSome

/-- String-level substring test (Python `pat in s`). -/
def containsSub (pat s : String) : Bool := containsPat pat.data s.data

/-- No nonempty suffix of `x`, continued by `tail`, starts with `pat`: the
leftmost occurrence of `pat` in `x ++ tail` (if any) starts inside `tail`. -/
def SkipOkB (pat x tail : List Char) : Prop :=
  ∀ s : List Char, s <:+ x → s ≠ [] → ¬ (pat.isPrefixOf (s ++ tail) = true)

/- ======================================================================
   Configuration constants (source lines 27-40).
   ====================================================================== -/

def MAX_ARTICLES : Nat := 20

def FEED_TITLE : String := "Disway.id - Saldo Dana Gratis"

def FEED_DESCRIPTION : String := "RSS Feed dari disway.id dengan konten artikel lengkap"

def FEED_LINK : String := "https://disway.id"

/-- `FEED_MAX_AGE_HOURS = 3`, in minutes. -/
def FEED_MAX_AGE_MINUTES : Int := 3 * 60

/-- `SEEN_MAX_AGE_DAYS = 30`, in minutes. -/
def SEEN_MAX_AGE_MINUTES : Int := 30 * 24 * 60

/- ======================================================================
   html.escape (Python standard library, used by the serializer).
   `s.replace('&','&amp;').replace('<','&lt;').replace('>','&gt;')
    .replace('"','&quot;').replace("'",'&#x27;')` applied in this order is
   equivalent to the character-wise map below, because the replacement texts
   introduce no character that a later replacement rewrites.
   ====================================================================== -/

def escChar (c : Char) : List Char :=
  if c = Char.ofNat 38 then "&amp;".data
  else if c = Char.ofNat 60 then "&lt;".data
  else if c = Char.ofNat 62 then "&gt;".data
  else if c = Char.ofNat 34 then "&quot;".data
  else if c = Char.ofNat 39 then "&#x27;".data
  else [c]

def htmlEscapeL (cs : List Char) : List Char :=
  cs.foldr (fun c acc => escChar c ++ acc) []

def htmlEscape (s : String) : String := ⟨htmlEscapeL s.data⟩

/- ======================================================================
   Data model.
   ====================================================================== -/

/-- One value of the persisted tracking dict `seen_articles.json`
(url ↦ {title, first_seen, pub_date}).  Loaded entries may lack keys
(`data.get('first_seen','')`), hence the `Option`s. -/
structure SeenEntry where
  title : String
  first_seen : Option Int
  pub_date : Option Int
deriving DecidableEq

/-- The persisted tracking state: a Python dict keyed by article URL. -/
abbrev SeenState := List (String × SeenEntry)

/-- A concrete tracking entry used by witnesses below. -/
def sampleEntry : SeenEntry := { title := "t", first_seen := some 98560, pub_date := some 5 }

/-- One (title, link) pair scraped from the listing page. -/
structure Candidate where
  title : String
  link : String
deriving DecidableEq

/-- An anchor element seen by `parse_list_page`: its href and its text. -/
structure RawLink where
  href : String
  text : String
deriving DecidableEq

/-- The fields `parse_article_page` extracts from an article page. -/
structure ArticleData where
  title : String
  original_date : String
  reporter : String
  editor : String
  image : String
  caption : String
  content : String
  tags : List String
  category : String
deriving DecidableEq

/-- An entry of `new_articles_data` in `main`: extractor output completed with
the listing link and the synthetic publish timestamp (source lines 536-551). -/
structure NewArticle where
  title : String
  link : String
  pub_date : Int
  original_date : String
  reporter : String
  editor : String
  image : String
  caption : String
  content : String
  tags : List String
  category : String
deriving DecidableEq

/-- One `<item>` of the feed, as assembled by `generate_rss` or recovered from
the previous `feed.xml` by `load_existing_feed` (reconciler view: the publish
date is carried as its underlying instant). -/
structure FeedItem where
  title : String
  link : String
  description_html : String
  pubDate : Int
  guid : String
  image : String
  categories : List String
deriving DecidableEq

/- ======================================================================
   Tracking file I/O (source lines 56-71).
   ====================================================================== -/

/-- Outcome of trying to read the tracking file. -/
inductive FileRead where
  | absent : FileRead
  | unreadable : FileRead
  | content : String → FileRead
deriving DecidableEq

/-- `load_seen_articles` (source lines 56-63): absent file, `IOError`, and
`json.JSONDecodeError` (modelled by `parseJson` returning `none`) all yield the
empty dict. -/
def load_seen_articles (parseJson : String → Option SeenState) : FileRead → SeenState
  | FileRead.absent => []
  | FileRead.unreadable => []
  | FileRead.content s =>
    match parseJson s with
    | some m => m
    | none => []

/-- The retention test of `save_seen_articles`:
`data.get('first_seen','') > cutoff`; a missing `first_seen` reads as `''`,
which never exceeds the ISO cutoff string. -/
def keepSeen (now : Int) (p : String × SeenEntry) : Bool :=
  match p.2.first_seen with
  | some t => decide (now - SEEN_MAX_AGE_MINUTES < t)
  | none => false

/-- `save_seen_articles` (source lines 66-71): keep exactly the entries whose
`first_seen` is strictly newer than `now - SEEN_MAX_AGE_DAYS`. -/
def save_seen_articles (now : Int) (seen : SeenState) : SeenState :=
  seen.filter (keepSeen now)

/- ======================================================================
   Fetching and listing-page parsing (source lines 122-165).
   ====================================================================== -/

/-- The retry loop of `fetch_page`, starting at attempt number `i` with `n`
attempts left: return on the first success. -/
def fetchLoop (attempt : Nat → Option String) : Nat → Nat → Option String
  | _, 0 => none
  | i, n + 1 =>
    match attempt i with
    | some r => some r
    | none => fetchLoop attempt (i + 1) n

/-- `fetch_page` (source lines 122-133): try `attempt 0`, `attempt 1`, … up to
`retries` times, returning the first successful body, else `None`.  The
network is the external parameter `attempt`. -/
def fetch_page (attempt : Nat → Option String) (retries : Nat) : Option String :=
  fetchLoop attempt 0 retries

/-- Relative hrefs get the site prefix (source lines 154-155). -/
def normalizeHref (h : String) : String :=
  if h.startsWith "/" then "https://disway.id" ++ h else h

/-- The candidate built from one accepted anchor (source line 160). -/
def mkCand (l : RawLink) : Candidate :=
  { title := l.text, link := normalizeHref l.href }

/-- The candidate-collection loop of `parse_list_page` (source lines 149-163):
skip empty href/text, normalize, keep only article URLs, deduplicate by URL,
stop at `MAX_ARTICLES`. -/
def parseListLoop : List RawLink → List Candidate → List Candidate
  | [], acc => acc
  | l :: rest, acc =>
    if l.href = "" ∨ l.text = "" then parseListLoop rest acc
    else if ¬ (containsSub "/read/" (normalizeHref l.href) = true
        ∨ containsSub "/catatan-harian-dahlan/" (normalizeHref l.href) = true) then
      parseListLoop rest acc
    else if acc.any (fun a => a.link == normalizeHref l.href) then parseListLoop rest acc
    else if MAX_ARTICLES ≤ (acc ++ [mkCand l]).length then acc ++ [mkCand l]
    else parseListLoop rest (acc ++ [mkCand l])

/-- `parse_list_page` on the anchors found in the listing markup. -/
def parse_list_page (links : List RawLink) : List Candidate :=
  parseListLoop links []

/- ======================================================================
   The per-new-article loop of `main` (source lines 527-560).
   ====================================================================== -/

/-- Placeholder article used when extraction fails (source lines 543-551). -/
def placeholderArticle (c : Candidate) (pub : Int) : NewArticle :=
  { title := c.title, link := c.link, pub_date := pub,
    original_date := "", reporter := "", editor := "", image := "",
    caption := "", content := "(Konten tidak dapat diambil)",
    tags := [], category := "" }

/-- Successful extraction completed with listing metadata (source lines
536-541): default the title from the listing when empty, set the link and the
synthetic publish timestamp. -/
def withMeta (d : ArticleData) (c : Candidate) (pub : Int) : NewArticle :=
  { title := if d.title = "" then c.title else d.title, link := c.link, pub_date := pub,
    original_date := d.original_date, reporter := d.reporter, editor := d.editor,
    image := d.image, caption := d.caption, content := d.content,
    tags := d.tags, category := d.category }

/-- Step 5 of `main` (source lines 527-560): walk the new candidates in listing
order; article `i` gets publish timestamp `now + i` minutes; every processed
URL is recorded in the seen dict with `first_seen = now`.  `fetchArticle`
stands for `parse_article_page` (network + extractor). -/
def processLoop (fetchArticle : String → Option ArticleData) (now : Int) :
    List Candidate → Nat → SeenState → List NewArticle × SeenState
  | [], _, seen => ([], seen)
  | c :: rest, i, seen =>
    let pub : Int := now + (i : Int)
    let art : NewArticle :=
      match fetchArticle c.link with
      | some d => withMeta d c pub
      | none => placeholderArticle c pub
    let seen2 := insertA seen c.link { title := c.title, first_seen := some now, pub_date := some pub }
    let r := processLoop fetchArticle now rest (i + 1) seen2
    (art :: r.1, r.2)

/- ======================================================================
   Feed reconciliation and item assembly (source lines 366-431, 487-500).
   ====================================================================== -/

def joinComma : List String → String
  | [] => ""
  | [s] => s
  | s :: rest => s ++ ", " ++ joinComma rest

/-- One paragraph of `build_article_html`'s content loop (source lines
381-389). -/
def paragraphHtml (para : String) : String :=
  let p := para.trim
  if p = "" then ""
  else if p.startsWith "### " then "<h3>" ++ htmlEscape (p.drop 4) ++ "</h3>\n"
  else "<p>" ++ htmlEscape p ++ "</p>\n"

/-- `build_article_html` (source lines 366-393). -/
def build_article_html (a : NewArticle) : String :=
  (if a.image ≠ "" then
      "<p><img src=\"" ++ htmlEscape a.image ++ "\" alt=\"" ++ htmlEscape a.title
        ++ "\" style=\"max-width:100%;\" /></p>\n"
    else "")
  ++ (if a.caption ≠ "" then "<p><em>" ++ htmlEscape a.caption ++ "</em></p>\n" else "")
  ++ (if a.reporter ≠ "" then
        "<p><strong>Reporter:</strong> " ++ htmlEscape a.reporter
          ++ (if a.editor ≠ "" then " | <strong>Editor:</strong> " ++ htmlEscape a.editor else "")
          ++ "</p>\n"
      else "")
  ++ (if a.original_date ≠ "" then
        "<p><em>Tanggal asli: " ++ htmlEscape a.original_date ++ "</em></p>\n"
      else "")
  ++ (if a.content ≠ "" then
        String.join ((a.content.splitOn "\n\n").map paragraphHtml)
      else "")
  ++ (if a.tags ≠ [] then
        "<p><strong>Tags:</strong> " ++ htmlEscape (joinComma a.tags) ++ "</p>\n"
      else "")

/-- Category list of a new item (source lines 410-413). -/
def articleCategories (a : NewArticle) : List String :=
  (if a.category ≠ "" then [a.category] else []) ++ a.tags

/-- Item assembly for a freshly processed article (source lines 404-423).  In
`main`'s flow every article dict carries its `link`, so the GUID is the link
(the `hashlib.md5` fallback of line 408 applies only to link-less dicts; see
`articleGuid`). -/
def toFeedItem (a : NewArticle) : FeedItem :=
  { title := a.title, link := a.link, description_html := build_article_html a,
    pubDate := a.pub_date, guid := a.link, image := a.image,
    categories := articleCategories a }

/-- The GUID rule of `generate_rss` line 408:
`article.get('link', hashlib.md5(article.get('title','').encode()).hexdigest())`.
`md5hex` is the external hash. -/
def articleGuid (md5hex : String → String) (link : Option String) (title : String) : String :=
  match link with
  | some l => l
  | none => md5hex title

/-- The item set of `generate_rss` (source lines 400-431): new items first,
then the prior-feed items whose link is not among the new articles. -/
def generateRssItems (new : List NewArticle) (existing : List FeedItem) : List FeedItem :=
  new.map toFeedItem
    ++ existing.filter (fun it => !(new.any (fun a => a.link == it.link)))

/-- The test `seen[link].get('first_seen','') > cutoff` of step 2 of `main`:
a missing `first_seen` reads as `''` and never exceeds the cutoff. -/
def freshTest (now : Int) (fs : Option Int) : Bool :=
  match fs with
  | some t => decide (now - FEED_MAX_AGE_MINUTES < t)
  | none => false

/-- Step 2 of `main` (source lines 487-495): a prior-feed item survives when
its URL is tracked with `first_seen` newer than `now - FEED_MAX_AGE_HOURS`, or
when its URL is not tracked at all (orphan entries are kept). -/
def keepFresh (now : Int) (seen : SeenState) (it : FeedItem) : Bool :=
  match lookupA seen it.link with
  | some e => freshTest now e.first_seen
  | none => true

def freshExisting (now : Int) (seen : SeenState) (existing : List FeedItem) : List FeedItem :=
  existing.filter (keepFresh now seen)

/-- Step 4 of `main` (source lines 518-522): the candidates whose URL is not in
the seen dict. -/
def classifyNew (seen : SeenState) (cands : List Candidate) : List Candidate :=
  cands.filter (fun c => (lookupA seen c.link).isNone)

/-- Outcome of one run: the generated feed items, the persisted tracking state,
and the links classified as new. -/
structure RunResult where
  feed : List FeedItem
  saved : SeenState
  newLinks : List String
deriving DecidableEq

/-- One full run of `main` (source lines 475-568) after the listing pages have
produced `cands`: prune the prior feed, split candidates into new/seen, process
the new ones, regenerate the feed, purge and persist the tracking state.  When
the listing yields nothing the prior feed is regenerated as-is (lines
509-516). -/
def runOnce (now : Int) (seen0 : SeenState) (existing0 : List FeedItem)
    (cands : List Candidate) (fetchArticle : String → Option ArticleData) : RunResult :=
  if cands = [] then
    { feed := generateRssItems [] (freshExisting now seen0 existing0),
      saved := save_seen_articles now seen0, newLinks := [] }
  else
    { feed := generateRssItems (processLoop fetchArticle now (classifyNew seen0 cands) 0 seen0).1
        (freshExisting now seen0 existing0),
      saved := save_seen_articles now (processLoop fetchArticle now (classifyNew seen0 cands) 0 seen0).2,
      newLinks := (classifyNew seen0 cands).map (fun c => c.link) }

/-- The freshness property C3 claims of every feed item: its tracked
`first_seen` — or, lacking one, its publish timestamp — is no older than `now`
minus the freshness window. -/
def itemWithinWindow (now : Int) (seen : SeenState) (it : FeedItem) : Bool :=
  match (lookupA seen it.link).bind (fun e => e.first_seen) with
  | some t => decide (now - FEED_MAX_AGE_MINUTES ≤ t)
  | none => decide (now - FEED_MAX_AGE_MINUTES ≤ it.pubDate)

/-- Fixture: a prior-feed item whose URL has no tracking record (an orphan
carried-over item), 1000 minutes old. -/
def zItem : FeedItem :=
  { title := "Zt", link := "https://z", description_html := "d", pubDate := 99000,
    guid := "https://z", image := "", categories := [] }

/-- Fixture: a listing candidate. -/
def wCand : Candidate := { title := "W", link := "https://disway.id/read/9/w" }

/-- Fixture: a prior-feed item with a fresh tracking record. -/
def aItem : FeedItem :=
  { title := "At", link := "https://a", description_html := "d", pubDate := 99900,
    guid := "https://a", image := "", categories := [] }

/-- Fixture: the tracking state holding `aItem`, 100 minutes old at
`now = 100000`. -/
def aSeen : SeenState :=
  [("https://a", { title := "At", first_seen := some 99900, pub_date := some 99900 })]

/-- Fixture: a candidate still on the listing whose tracking entry sits
exactly at the retention cutoff. -/
def c4cand : Candidate := { title := "t", link := "https://disway.id/read/1/a" }

/-- Fixture: the tracking state holding `c4cand` at the retention boundary for
`now = 100000`. -/
def c4seen : SeenState :=
  [("https://disway.id/read/1/a", { title := "t", first_seen := some 56800, pub_date := some 0 })]

/- ======================================================================
   `make_pub_date` (source lines 357-363), for reference: the rendered string
   determines and is determined by the minute-valued instant.
   ====================================================================== -/

structure PyDateTime where
  year : Nat
  month : Nat
  day : Nat
  hour : Nat
  minute : Nat
  weekday : Nat
deriving DecidableEq

def twoDigits (n : Nat) : String := if n < 10 then "0" ++ toString n else toString n

def make_pub_date (dt : PyDateTime) : String :=
  (["Mon", "Tue", "Wed", "Thu", "Fri", "Sat", "Sun"].getD dt.weekday "") ++ ", "
    ++ twoDigits dt.day ++ " "
    ++ (["Jan", "Feb", "Mar", "Apr", "May", "Jun",
         "Jul", "Aug", "Sep", "Oct", "Nov", "Dec"].getD (dt.month - 1) "") ++ " "
    ++ toString dt.year ++ " " ++ twoDigits dt.hour ++ ":" ++ twoDigits dt.minute ++ ":00 +0700"

/- ======================================================================
   XML serialization (source lines 435-468) and the recovery of fields from a
   previously emitted item (`load_existing_feed`, source lines 86-109).
   ====================================================================== -/

/-- An item as fed to the XML writer: the publish date is already a rendered
string here, as in the Python dicts. -/
structure RItem where
  title : String
  link : String
  guid : String
  pubDateStr : String
  categories : List String
  image : String
  description_html : String
deriving DecidableEq

def serializeCategory (cat : String) : String :=
  "      <category><![CDATA[" ++ cat ++ "]]></category>\n"

/-- The part of an `<item>` block following `</guid>` (source lines 455-464):
the raw pubDate string, one CDATA category line per category, the optional
media element, and the CDATA description/content blocks. -/
def itemTail (it : RItem) : String :=
  "\n      <pubDate>" ++ it.pubDateStr ++ "</pubDate>\n"
  ++ String.join (it.categories.map serializeCategory)
  ++ (if it.image ≠ "" then
        "      <media:content url=\"" ++ htmlEscape it.image ++ "\" medium=\"image\" />\n"
      else "")
  ++ "      <description><![CDATA[" ++ it.description_html ++ "]]></description>\n"
  ++ "      <content:encoded><![CDATA[" ++ it.description_html ++ "]]></content:encoded>\n"
  ++ "    </item>\n"

/-- The `<item>` block written by `generate_rss` (source lines 450-464).
Title, categories and description go into CDATA sections verbatim; link, guid
and image URL go through `html.escape`; the pubDate string is written raw.
The literal scaffolding of the Python f-string is written here in a few more
pieces (e.g. `"</link>\n      " ++ "<guid" ++ " isPermaLink=\"true\"" ++ ">"`),
whose concatenation is character-for-character the f-string text of lines
451-456. -/
def serializeItem (it : RItem) : String :=
  "    <item>\n      <title><![CDATA[" ++ it.title ++ "]]></title>\n      <link>"
    ++ htmlEscape it.link ++ "</link>\n      " ++ "<guid" ++ " isPermaLink=\"true\"" ++ ">"
    ++ htmlEscape it.guid ++ "</guid>" ++ itemTail it

/-- Channel header of the generated document up to the build date (source
lines 435-446). -/
def rssHeaderPrefix : String :=
  "<?xml version=\"1.0\" encoding=\"UTF-8\"?>\n<rss version=\"2.0\"\n     xmlns:dc=\"http://purl.org/dc/elements/1.1/\"\n     xmlns:content=\"http://purl.org/rss/1.0/modules/content/\"\n     xmlns:atom=\"http://www.w3.org/2005/Atom\"\n     xmlns:media=\"http://search.yahoo.com/mrss/\">\n  <channel>\n    <title>"
    ++ htmlEscape FEED_TITLE ++ "</title>\n    <description>" ++ htmlEscape FEED_DESCRIPTION
    ++ "</description>\n    <link>" ++ htmlEscape FEED_LINK
    ++ "</link>\n    <language>id</language>\n    <lastBuildDate>"

/-- Rest of the channel header (source lines 446-448). -/
def rssHeaderSuffix : String :=
  "</lastBuildDate>\n    <generator>Disway RSS Scraper (GitHub Actions)</generator>\n"

/-- Channel header of the generated document (source lines 435-448). -/
def rssHeader (nowStr : String) : String :=
  rssHeaderPrefix ++ nowStr ++ rssHeaderSuffix

/-- The complete RSS document produced by `generate_rss`. -/
def generate_rss_xml (nowStr : String) (items : List RItem) : String :=
  rssHeader nowStr ++ String.join (items.map serializeItem) ++ "  </channel>\n</rss>"

/-- The guid extraction of `load_existing_feed` line 93
(`re.search(r'<guid[^>]*>(.*?)</guid>', item_xml)`): leftmost `<guid`, skip to
the next `>`, take up to the first `</guid>`.  Modelled on the item fragments
this scraper itself writes (where the first `<guid` has a completing match). -/
def extractGuidL (cs : List Char) : Option (List Char) :=
  match findSplit "<guid".data cs with
  | none => none
  | some p1 =>
    match findSplit ">".data p1.2 with
    | none => none
    | some p2 =>
      match findSplit "</guid>".data p2.2 with
      | none => none
      | some p3 => some p3.1

def extractGuid (xml : String) : Option String :=
  (extractGuidL xml.data).map (fun g => String.mk g)

/-- Python `str.strip()`: drop whitespace from both ends. -/
def pyStrip (s : String) : String :=
  String.mk (((s.data.dropWhile (fun c => c.isWhitespace)).reverse.dropWhile
    (fun c => c.isWhitespace)).reverse)

/-- The guid field recovered by `load_existing_feed` (line 106): the matched
text stripped, else the item's link. -/
def loadItemGuid (xml link : String) : String :=
  match extractGuid xml with
  | some g => pyStrip g
  | none => link

/-- Fixture: an item whose link (= guid) contains an ampersand. -/
def c7item : RItem :=
  { title := "T", link := "https://disway.id/read/1?a=1&b=2",
    guid := "https://disway.id/read/1?a=1&b=2", pubDateStr := "pd", categories := [],
    image := "", description_html := "d" }

/-- Fixture: an item whose link (= guid) is untouched by HTML escaping. -/
def c7good : RItem :=
  { title := "T", link := "https://disway.id/read/2/x",
    guid := "https://disway.id/read/2/x", pubDateStr := "pd", categories := ["c"],
    image := "", description_html := "d" }

/- ======================================================================
   A scanner for the one well-formedness rule the CDATA claims hinge on:
   outside CDATA sections the sequence `]]>` must not occur in character
   data (XML 1.0, section 2.4), and a CDATA section ends at the first
   `]]>`.  One-character DFA; `dead` marks a violation.
   ====================================================================== -/

inductive ScanState where
  | t0 : ScanState
  | t1 : ScanState
  | t2 : ScanState
  | l1 : ScanState
  | l2 : ScanState
  | l3 : ScanState
  | l4 : ScanState
  | l5 : ScanState
  | l6 : ScanState
  | l7 : ScanState
  | l8 : ScanState
  | c0 : ScanState
  | c1 : ScanState
  | c2 : ScanState
  | dead : ScanState
deriving DecidableEq

/-- Dispatch from neutral text: `<` may start `<![CDATA[`, `]` may start
`]]>`. -/
def stepT0 (c : Char) : ScanState :=
  if c = Char.ofNat 60 then ScanState.l1
  else if c = Char.ofNat 93 then ScanState.t1
  else ScanState.t0

def scanStep : ScanState → Char → ScanState
  | ScanState.t0, c => stepT0 c
  | ScanState.t1, c => if c = Char.ofNat 93 then ScanState.t2 else stepT0 c
  | ScanState.t2, c =>
    if c = Char.ofNat 62 then ScanState.dead
    else if c = Char.ofNat 93 then ScanState.t2
    else stepT0 c
  | ScanState.l1, c => if c = Char.ofNat 33 then ScanState.l2 else stepT0 c
  | ScanState.l2, c => if c = Char.ofNat 91 then ScanState.l3 else stepT0 c
  | ScanState.l3, c => if c = Char.ofNat 67 then ScanState.l4 else stepT0 c
  | ScanState.l4, c => if c = Char.ofNat 68 then ScanState.l5 else stepT0 c
  | ScanState.l5, c => if c = Char.ofNat 65 then ScanState.l6 else stepT0 c
  | ScanState.l6, c => if c = Char.ofNat 84 then ScanState.l7 else stepT0 c
  | ScanState.l7, c => if c = Char.ofNat 65 then ScanState.l8 else stepT0 c
  | ScanState.l8, c => if c = Char.ofNat 91 then ScanState.c0 else stepT0 c
  | ScanState.c0, c => if c = Char.ofNat 93 then ScanState.c1 else ScanState.c0
  | ScanState.c1, c => if c = Char.ofNat 93 then ScanState.c2 else ScanState.c0
  | ScanState.c2, c =>
    if c = Char.ofNat 62 then ScanState.t0
    else if c = Char.ofNat 93 then ScanState.c2
    else ScanState.c0
  | ScanState.dead, _ => ScanState.dead

def scanList (st : ScanState) (cs : List Char) : ScanState :=
  cs.foldl scanStep st

/-- The document's CDATA structure is sound: scanning ends back in neutral
text with no stray `]]>` met and no unterminated CDATA section. -/
def wfCdataScan (s : String) : Bool :=
  decide (scanList ScanState.t0 s.data = ScanState.t0)

/-- The scanner sits in plain character data. -/
def TState (st : ScanState) : Prop :=
  st = ScanState.t0 ∨ st = ScanState.t1 ∨ st = ScanState.t2

/-- The scanner sits inside a CDATA section. -/
def CState (st : ScanState) : Prop :=
  st = ScanState.c0 ∨ st = ScanState.c1 ∨ st = ScanState.c2

/-- The trailing `]` characters a CDATA scanner state remembers. -/
def cpad : ScanState → List Char
  | ScanState.c1 => [Char.ofNat 93]
  | ScanState.c2 => [Char.ofNat 93, Char.ofNat 93]
  | _ => []

/-- Fixture: an item whose title contains the CDATA terminator `]]>`. -/
def c8bad : RItem :=
  { title := "a]]>b", link := "https://disway.id/read/3/y",
    guid := "https://disway.id/read/3/y", pubDateStr := "pd", categories := [],
    image := "", description_html := "d" }

/-- Fixture: a benign item. -/
def c8good : RItem :=
  { title := "ok title", link := "https://disway.id/read/3/y",
    guid := "https://disway.id/read/3/y", pubDateStr := "Sun, 12 Oct 2025 10:00:00 +0700",
    categories := ["cat"], image := "https://cms.disway.id/uploads/i.jpg",
    description_html := "<p>body</p>\n" }

end Disway

namespace Disway

/- ======================================================================
   Association-list lemmas (dict model).
   ====================================================================== -/

theorem lookupA_insertA_self {α : Type} (m : List (String × α)) (k : String) (v : α) :
    lookupA (insertA m k v) k = some v := by
  induction m with
  | nil => simp [insertA, lookupA]
  | cons p rest ih =>
    by_cases h : p.1 = k
    · simp [insertA, h, lookupA]
    · simp [insertA, h, lookupA, ih]

theorem lookupA_insertA_ne {α : Type} (m : List (String × α)) (k q : String) (v : α)
    (h : q ≠ k) : lookupA (insertA m k v) q = lookupA m q := by
  induction m with
  | nil => simp [insertA, lookupA, Ne.symm h]
  | cons p rest ih =>
    by_cases hp : p.1 = k
    · simp [insertA, hp, lookupA, Ne.symm h]
    · by_cases hq : p.1 = q
      · simp [insertA, hp, lookupA, hq, h]
      · simp [insertA, hp, lookupA, hq, ih]

theorem lookupA_filter_pos {α : Type} (p : (String × α) → Bool) (m : List (String × α))
    (k : String) (v : α) (h : lookupA m k = some v) (hp : p (k, v) = true) :
    lookupA (m.filter p) k = some v := by
  induction m with
  | nil => simp [lookupA] at h
  | cons q rest ih =>
    by_cases hq : q.1 = k
    · have hv : q.2 = v := by
        rw [lookupA, if_pos hq] at h
        exact Option.some.inj h
      have hq2 : q = (k, v) := by
        obtain ⟨a, b⟩ := q
        simp only at hq hv
        rw [hq, hv]
      rw [hq2, List.filter_cons, if_pos hp, lookupA]
      simp
    · rw [lookupA, if_neg hq] at h
      rw [List.filter_cons]
      by_cases hpq : p q = true
      · rw [if_pos hpq, lookupA, if_neg hq]
        exact ih h
      · rw [if_neg hpq]
        exact ih h

theorem lookupA_filter_none {α : Type} (p : (String × α) → Bool) (m : List (String × α))
    (k : String) (h : lookupA m k = none) :
    lookupA (m.filter p) k = none := by
  induction m with
  | nil => simp [lookupA]
  | cons q rest ih =>
    rw [lookupA] at h
    by_cases hq : q.1 = k
    · rw [if_pos hq] at h
      exact absurd h (by simp)
    · rw [if_neg hq] at h
      rw [List.filter_cons]
      by_cases hpq : p q = true
      · rw [if_pos hpq, lookupA, if_neg hq]
        exact ih h
      · rw [if_neg hpq]
        exact ih h

/- ======================================================================
   Retention (save_seen_articles).
   ====================================================================== -/

theorem keepSeen_iff (now : Int) (q : String × SeenEntry) :
    keepSeen now q = true ↔ ∃ t : Int, q.2.first_seen = some t ∧ now - SEEN_MAX_AGE_MINUTES < t := by
  unfold keepSeen
  cases hfs : q.2.first_seen with
  | none => simp
  | some t => simp

/-- C5: after a run's save, every entry of the persisted tracking state has a
`first_seen` timestamp strictly newer than now minus the retention window
(`SEEN_MAX_AGE_DAYS = 30` days = 43200 minutes); older entries are purged by
`save_seen_articles` before persisting. -/
theorem claim5_retention (now : Int) (seen : SeenState) (url : String) (e : SeenEntry)
    (h : (url, e) ∈ save_seen_articles now seen) :
    ∃ t : Int, e.first_seen = some t ∧ now - SEEN_MAX_AGE_MINUTES < t :=
  (keepSeen_iff now (url, e)).mp (List.mem_filter.mp h).2

/-- Witness for C5 at a concrete state: a one-day-old entry survives the save
and indeed carries a `first_seen` within the retention window. -/
theorem claim5_witness :
    ("u", sampleEntry) ∈ save_seen_articles 100000 [("u", sampleEntry)]
      ∧ ∃ t : Int, sampleEntry.first_seen = some t ∧ 100000 - SEEN_MAX_AGE_MINUTES < t :=
  ⟨by decide, claim5_retention 100000 [("u", sampleEntry)] "u" sampleEntry (by decide)⟩

/- ======================================================================
   Loading the tracking state.
   ====================================================================== -/

/-- C9: loading the persisted seen-state at run start is total and non-fatal:
an absent file, an unreadable file, and invalid JSON all make
`load_seen_articles` return the empty mapping instead of raising, so the run
proceeds as if no URL had been seen. -/
theorem claim9_load_total (parseJson : String → Option SeenState) (fr : FileRead)
    (h : fr = FileRead.absent ∨ fr = FileRead.unreadable
        ∨ ∃ s, fr = FileRead.content s ∧ parseJson s = none) :
    load_seen_articles parseJson fr = [] := by
  rcases h with rfl | rfl | ⟨s, rfl, hp⟩
  · rfl
  · rfl
  · simp [load_seen_articles, hp]

/-- Witness for C9 at a concrete corrupt file. -/
theorem claim9_witness : load_seen_articles (fun _ => none) (FileRead.content "corrupt") = [] :=
  claim9_load_total (fun _ => none) (FileRead.content "corrupt")
    (Or.inr (Or.inr ⟨"corrupt", rfl, rfl⟩))

/- ======================================================================
   The per-article loop: timestamps, placeholders, seen updates.
   ====================================================================== -/

theorem fetchLoop_none (attempt : Nat → Option String) :
    ∀ (n i : Nat), (∀ j, j < n → attempt (i + j) = none) → fetchLoop attempt i n = none := by
  intro n
  induction n with
  | zero => intro i _; rfl
  | succ m ih =>
    intro i h
    have h0 : attempt i = none := by simpa using h 0 (Nat.succ_pos m)
    rw [fetchLoop, h0]
    exact ih (i + 1) fun j hj => by
      have h2 := h (j + 1) (by omega)
      rw [show i + 1 + j = i + (j + 1) from by omega]
      exact h2

theorem fetch_page_none (attempt : Nat → Option String) (retries : Nat)
    (h : ∀ j, j < retries → attempt j = none) : fetch_page attempt retries = none :=
  fetchLoop_none attempt retries 0 (by simpa using h)

theorem processLoop_length (f : String → Option ArticleData) (now : Int) :
    ∀ (arts : List Candidate) (j : Nat) (seen : SeenState),
      ((processLoop f now arts j seen).1).length = arts.length := by
  intro arts
  induction arts with
  | nil => intro j seen; rfl
  | cons c rest ih =>
    intro j seen
    simp only [processLoop, List.length_cons]
    rw [ih]

theorem processLoop_links (f : String → Option ArticleData) (now : Int) :
    ∀ (arts : List Candidate) (j : Nat) (seen : SeenState),
      ((processLoop f now arts j seen).1).map (fun a => a.link) = arts.map (fun c => c.link) := by
  intro arts
  induction arts with
  | nil => intro j seen; rfl
  | cons c rest ih =>
    intro j seen
    simp only [processLoop, List.map_cons]
    rw [ih]
    cases hf : f c.link <;> simp [hf, withMeta, placeholderArticle]

theorem processLoop_pub (f : String → Option ArticleData) (now : Int) :
    ∀ (arts : List Candidate) (j : Nat) (seen : SeenState),
      ((processLoop f now arts j seen).1).map (fun a => a.pub_date)
        = (List.range arts.length).map (fun i => now + ((j + i : Nat) : Int)) := by
  intro arts
  induction arts with
  | nil => intro j seen; rfl
  | cons c rest ih =>
    intro j seen
    simp only [processLoop, List.map_cons, List.length_cons, List.range_succ_eq_map,
      List.map_map]
    have hfun : ((fun i : Nat => now + ((j + i : Nat) : Int)) ∘ Nat.succ)
        = fun i : Nat => now + (((j + 1) + i : Nat) : Int) := by
      funext i
      simp only [Function.comp_apply, Nat.succ_eq_add_one]
      push_cast
      ring
    rw [hfun, ih (j + 1)]
    congr 1
    cases hf : f c.link <;> simp [hf, withMeta, placeholderArticle]

theorem processLoop_get_fail (f : String → Option ArticleData) (now : Int) :
    ∀ (arts : List Candidate) (j : Nat) (seen : SeenState) (i : Nat) (c : Candidate),
      arts.get? i = some c → f c.link = none →
      ((processLoop f now arts j seen).1).get? i
        = some (placeholderArticle c (now + ((j + i : Nat) : Int))) := by
  intro arts
  induction arts with
  | nil => intro j seen i c hc _; simp at hc
  | cons a rest ih =>
    intro j seen i c hc hf
    cases i with
    | zero =>
      obtain rfl : a = c := by simpa using hc
      simp [processLoop, hf]
    | succ i2 =>
      have hc2 : rest.get? i2 = some c := by simpa using hc
      simp only [processLoop, List.get?_cons_succ]
      rw [ih (j + 1) _ i2 c hc2 hf]
      congr 2
      push_cast
      ring

/-- C1: within a run, the i-th new article (0-based, listing order) is
assigned publish timestamp `runStartTime + i` minutes, so for the same new
candidates in the same order the assigned timestamps are the same regardless
of the fetch outcomes and of the prior seen-state, and they are strictly
increasing (hence pairwise distinct) in the index. -/
theorem claim1_pub_timestamps (now : Int) (f g : String → Option ArticleData)
    (s1 s2 : SeenState) (arts : List Candidate) :
    ((processLoop f now arts 0 s1).1).map (fun a => a.pub_date)
        = (List.range arts.length).map (fun i : Nat => now + (i : Int))
      ∧ ((processLoop g now arts 0 s2).1).map (fun a => a.pub_date)
        = ((processLoop f now arts 0 s1).1).map (fun a => a.pub_date)
      ∧ (((processLoop f now arts 0 s1).1).map (fun a => a.pub_date)).Pairwise
          (fun x y => x < y) := by
  have hz : (fun i : Nat => now + ((0 + i : Nat) : Int)) = fun i : Nat => now + (i : Int) := by
    funext i
    norm_num
  have h1 := processLoop_pub f now arts 0 s1
  have h2 := processLoop_pub g now arts 0 s2
  rw [hz] at h1 h2
  refine ⟨h1, h2.trans h1.symm, ?_⟩
  rw [h1]
  refine List.Pairwise.map _ ?_ (List.pairwise_lt_range arts.length)
  intro a b hab
  have hab2 : (a : Int) < (b : Int) := by exact_mod_cast hab
  omega

/-- C6: a failed fetch is retried up to the bound and then yields `None`; for
every new link whose extraction fails the run substitutes a placeholder item —
title from the listing entry, body the fixed unavailable-content marker — and
every other article is still processed (the output list keeps one entry per
candidate, so the run never aborts). -/
theorem claim6_placeholder :
    (∀ attempt : Nat → Option String, (∀ j, j < 3 → attempt j = none) →
        fetch_page attempt 3 = none)
      ∧ ∀ (f : String → Option ArticleData) (now : Int) (arts : List Candidate)
          (seen : SeenState),
          ((processLoop f now arts 0 seen).1).length = arts.length
            ∧ ∀ (i : Nat) (c : Candidate), arts.get? i = some c → f c.link = none →
                ((processLoop f now arts 0 seen).1).get? i
                  = some (placeholderArticle c (now + (i : Int))) := by
  refine ⟨fun attempt h => fetch_page_none attempt 3 h, fun f now arts seen => ⟨processLoop_length f now arts 0 seen, ?_⟩⟩
  intro i c hc hf
  have h := processLoop_get_fail f now arts 0 seen i c hc hf
  simpa using h

/-- Witness for C6: with a network that always fails, the single candidate
becomes exactly the placeholder item. -/
theorem claim6_witness :
    fetch_page (fun _ => none) 3 = none
      ∧ ((processLoop (fun _ => none) 7 [{ title := "T", link := "L" }] 0 []).1).get? 0
          = some (placeholderArticle { title := "T", link := "L" } (7 + ((0 : Nat) : Int))) := by
  refine ⟨claim6_placeholder.1 (fun _ => none) (fun j _ => rfl), ?_⟩
  exact (claim6_placeholder.2 (fun _ => none) 7 [{ title := "T", link := "L" }] []).2 0
    { title := "T", link := "L" } rfl rfl

/- ======================================================================
   The listing-page loop (C10).
   ====================================================================== -/

theorem parseListLoop_length :
    ∀ (ls : List RawLink) (acc : List Candidate),
      acc.length < MAX_ARTICLES → (parseListLoop ls acc).length ≤ MAX_ARTICLES := by
  intro ls
  induction ls with
  | nil => intro acc h; exact Nat.le_of_lt h
  | cons l rest ih =>
    intro acc h
    simp only [parseListLoop]
    by_cases h1 : l.href = "" ∨ l.text = ""
    · rw [if_pos h1]; exact ih acc h
    rw [if_neg h1]
    by_cases h2 : ¬ (containsSub "/read/" (normalizeHref l.href) = true
        ∨ containsSub "/catatan-harian-dahlan/" (normalizeHref l.href) = true)
    · rw [if_pos h2]; exact ih acc h
    rw [if_neg h2]
    by_cases h3 : acc.any (fun a => a.link == normalizeHref l.href) = true
    · rw [if_pos h3]; exact ih acc h
    rw [if_neg h3]
    by_cases h4 : MAX_ARTICLES ≤ (acc ++ [mkCand l]).length
    · rw [if_pos h4]
      simp only [List.length_append, List.length_singleton]
      omega
    · rw [if_neg h4]
      apply ih
      simp only [List.length_append, List.length_singleton] at h4 ⊢
      omega

theorem parseListLoop_nodup :
    ∀ (ls : List RawLink) (acc : List Candidate),
      (acc.map (fun c => c.link)).Nodup →
      ((parseListLoop ls acc).map (fun c => c.link)).Nodup := by
  intro ls
  induction ls with
  | nil => intro acc h; exact h
  | cons l rest ih =>
    intro acc h
    simp only [parseListLoop]
    by_cases h1 : l.href = "" ∨ l.text = ""
    · rw [if_pos h1]; exact ih acc h
    rw [if_neg h1]
    by_cases h2 : ¬ (containsSub "/read/" (normalizeHref l.href) = true
        ∨ containsSub "/catatan-harian-dahlan/" (normalizeHref l.href) = true)
    · rw [if_pos h2]; exact ih acc h
    rw [if_neg h2]
    by_cases h3 : acc.any (fun a => a.link == normalizeHref l.href) = true
    · rw [if_pos h3]; exact ih acc h
    rw [if_neg h3]
    have hne : ∀ a ∈ acc, a.link ≠ normalizeHref l.href := by
      intro a ha heq
      exact h3 (List.any_eq_true.mpr ⟨a, ha, by simp [heq]⟩)
    have hnd : ((acc ++ [mkCand l]).map (fun c => c.link)).Nodup := by
      rw [List.map_append, List.nodup_append]
      refine ⟨h, by simp, ?_⟩
      intro x hx
      obtain ⟨a, ha, rfl⟩ := List.mem_map.mp hx
      simp only [mkCand, List.map_cons, List.map_nil, List.mem_singleton]
      exact hne a ha
    by_cases h4 : MAX_ARTICLES ≤ (acc ++ [mkCand l]).length
    · rw [if_pos h4]; exact hnd
    · rw [if_neg h4]; exact ih _ hnd

theorem parseListLoop_append_sublist :
    ∀ (ls : List RawLink) (acc : List Candidate),
      ∃ r, parseListLoop ls acc = acc ++ r
        ∧ (r.map (fun c => c.link)).Sublist (ls.map (fun l => normalizeHref l.href)) := by
  intro ls
  induction ls with
  | nil => intro acc; exact ⟨[], by simp [parseListLoop], by simp⟩
  | cons l rest ih =>
    intro acc
    simp only [parseListLoop, List.map_cons]
    by_cases h1 : l.href = "" ∨ l.text = ""
    · rw [if_pos h1]
      obtain ⟨r, hr, hs⟩ := ih acc
      exact ⟨r, hr, List.Sublist.cons _ hs⟩
    rw [if_neg h1]
    by_cases h2 : ¬ (containsSub "/read/" (normalizeHref l.href) = true
        ∨ containsSub "/catatan-harian-dahlan/" (normalizeHref l.href) = true)
    · rw [if_pos h2]
      obtain ⟨r, hr, hs⟩ := ih acc
      exact ⟨r, hr, List.Sublist.cons _ hs⟩
    rw [if_neg h2]
    by_cases h3 : acc.any (fun a => a.link == normalizeHref l.href) = true
    · rw [if_pos h3]
      obtain ⟨r, hr, hs⟩ := ih acc
      exact ⟨r, hr, List.Sublist.cons _ hs⟩
    rw [if_neg h3]
    by_cases h4 : MAX_ARTICLES ≤ (acc ++ [mkCand l]).length
    · rw [if_pos h4]
      refine ⟨[mkCand l], rfl, ?_⟩
      simp only [mkCand, List.map_cons, List.map_nil]
      exact List.Sublist.cons₂ _ (List.nil_sublist _)
    · rw [if_neg h4]
      obtain ⟨r, hr, hs⟩ := ih (acc ++ [mkCand l])
      refine ⟨mkCand l :: r, ?_, ?_⟩
      · rw [hr, List.append_assoc]
        rfl
      · simp only [mkCand, List.map_cons]
        exact List.Sublist.cons₂ _ hs

/-- C10: the candidate list built from a listing page holds at most
`MAX_ARTICLES = 20` entries (further matching links are dropped), its URLs are
pairwise distinct, and it follows page order (the retained URLs form a
subsequence of the page's normalized hrefs). -/
theorem claim10_listing_bound (ls : List RawLink) :
    (parse_list_page ls).length ≤ MAX_ARTICLES
      ∧ ((parse_list_page ls).map (fun c => c.link)).Nodup
      ∧ ((parse_list_page ls).map (fun c => c.link)).Sublist
          (ls.map (fun l => normalizeHref l.href)) := by
  refine ⟨parseListLoop_length ls [] (by simp [MAX_ARTICLES]),
    parseListLoop_nodup ls [] (by simp), ?_⟩
  obtain ⟨r, hr, hs⟩ := parseListLoop_append_sublist ls []
  unfold parse_list_page
  rw [hr]
  simpa using hs

/- ======================================================================
   Lookup facts of the run (seen updates, classification, carry-over).
   ====================================================================== -/

theorem processLoop_seen_notMem (f : String → Option ArticleData) (now : Int) :
    ∀ (arts : List Candidate) (j : Nat) (seen : SeenState) (k : String),
      (∀ c ∈ arts, c.link ≠ k) →
      lookupA (processLoop f now arts j seen).2 k = lookupA seen k := by
  intro arts
  induction arts with
  | nil => intro j seen k _; rfl
  | cons c rest ih =>
    intro j seen k h
    simp only [processLoop]
    rw [ih (j + 1) _ k (fun c2 hc2 => h c2 (List.mem_cons_of_mem _ hc2))]
    exact lookupA_insertA_ne seen c.link k _ (fun heq => h c (List.mem_cons_self c rest) heq.symm)

theorem processLoop_seen_mem (f : String → Option ArticleData) (now : Int) :
    ∀ (arts : List Candidate) (j : Nat) (seen : SeenState) (k : String),
      k ∈ arts.map (fun c => c.link) →
      ∃ e, lookupA (processLoop f now arts j seen).2 k = some e ∧ e.first_seen = some now := by
  intro arts
  induction arts with
  | nil => intro j seen k hk; simp at hk
  | cons c rest ih =>
    intro j seen k hk
    rw [List.map_cons, List.mem_cons] at hk
    by_cases hmem : k ∈ rest.map (fun c => c.link)
    · simp only [processLoop]
      exact ih (j + 1) _ k hmem
    · have hkc : k = c.link := hk.resolve_right hmem
      subst hkc
      simp only [processLoop]
      have hrest : ∀ c2 ∈ rest, c2.link ≠ c.link :=
        fun c2 hc2 heq => hmem (List.mem_map.mpr ⟨c2, hc2, heq⟩)
      rw [processLoop_seen_notMem f now rest (j + 1) _ _ hrest]
      exact ⟨_, lookupA_insertA_self _ _ _, rfl⟩

theorem mem_classifyNew (seen : SeenState) (cands : List Candidate) (c : Candidate) :
    c ∈ classifyNew seen cands ↔ c ∈ cands ∧ lookupA seen c.link = none := by
  simp [classifyNew, List.mem_filter, Option.isNone_iff_eq_none]

theorem keepFresh_of_entry (now : Int) (seen : SeenState) (it : FeedItem) (e : SeenEntry)
    (t : Int) (h : lookupA seen it.link = some e) (hfs : e.first_seen = some t)
    (ht : now - FEED_MAX_AGE_MINUTES < t) : keepFresh now seen it = true := by
  unfold keepFresh
  rw [h]
  show freshTest now e.first_seen = true
  rw [hfs]
  show decide (now - FEED_MAX_AGE_MINUTES < t) = true
  exact decide_eq_true ht

theorem keepFresh_of_none (now : Int) (seen : SeenState) (it : FeedItem)
    (h : lookupA seen it.link = none) : keepFresh now seen it = true := by
  unfold keepFresh
  rw [h]

theorem keepFresh_cases (now : Int) (seen : SeenState) (it : FeedItem)
    (h : keepFresh now seen it = true) :
    lookupA seen it.link = none
      ∨ ∃ e t, lookupA seen it.link = some e ∧ e.first_seen = some t
          ∧ now - FEED_MAX_AGE_MINUTES < t := by
  unfold keepFresh at h
  cases hl : lookupA seen it.link with
  | none => exact Or.inl rfl
  | some e =>
    rw [hl] at h
    replace h : freshTest now e.first_seen = true := h
    cases hfs : e.first_seen with
    | none =>
      rw [hfs] at h
      exact absurd h (by simp [freshTest])
    | some t =>
      rw [hfs] at h
      replace h : decide (now - FEED_MAX_AGE_MINUTES < t) = true := h
      exact Or.inr ⟨e, t, rfl, hfs, of_decide_eq_true h⟩

theorem generateRssItems_nil (ex : List FeedItem) : generateRssItems [] ex = ex := by
  simp [generateRssItems]

theorem generateRssItems_mem (new : List NewArticle) (ex : List FeedItem) (it : FeedItem)
    (h : it ∈ generateRssItems new ex) :
    (∃ a ∈ new, it = toFeedItem a) ∨ (it ∈ ex ∧ ∀ a ∈ new, a.link ≠ it.link) := by
  unfold generateRssItems at h
  rcases List.mem_append.mp h with h | h
  · obtain ⟨a, ha, rfl⟩ := List.mem_map.mp h
    exact Or.inl ⟨a, ha, rfl⟩
  · have h2 := List.mem_filter.mp h
    refine Or.inr ⟨h2.1, ?_⟩
    intro a ha heq
    have h3 := h2.2
    rw [Bool.not_eq_eq_eq_not, Bool.not_true, List.any_eq_false] at h3
    exact h3 a ha (by simp [heq])

theorem keepSeen_of_window (now t : Int) (k : String) (e : SeenEntry)
    (hfs : e.first_seen = some t) (ht : now - FEED_MAX_AGE_MINUTES < t) :
    keepSeen now (k, e) = true := by
  refine (keepSeen_iff now (k, e)).mpr ⟨t, hfs, ?_⟩
  simp only [FEED_MAX_AGE_MINUTES, SEEN_MAX_AGE_MINUTES] at ht ⊢
  omega

/-- Where every feed item of a run stands with respect to the tracking state:
either its URL is persisted with a `first_seen` inside the freshness window,
or it is an orphan — untracked before the run and untracked after it. -/
theorem runOnce_feed_tracking (now : Int) (seen0 : SeenState) (ex0 : List FeedItem)
    (cands : List Candidate) (f : String → Option ArticleData) (it : FeedItem)
    (hit : it ∈ (runOnce now seen0 ex0 cands f).feed) :
    (∃ e t, lookupA (runOnce now seen0 ex0 cands f).saved it.link = some e
        ∧ e.first_seen = some t ∧ now - FEED_MAX_AGE_MINUTES < t)
      ∨ (lookupA seen0 it.link = none
          ∧ lookupA (runOnce now seen0 ex0 cands f).saved it.link = none) := by
  have hnowfresh : now - FEED_MAX_AGE_MINUTES < now := by
    simp only [FEED_MAX_AGE_MINUTES]
    omega
  by_cases hc : cands = []
  · subst hc
    simp only [runOnce, if_pos rfl] at hit ⊢
    rw [generateRssItems_nil] at hit
    have hkf := (List.mem_filter.mp hit).2
    rcases keepFresh_cases now seen0 it hkf with hnone | ⟨e, t, hl, hfs, ht⟩
    · exact Or.inr ⟨hnone, lookupA_filter_none _ seen0 it.link hnone⟩
    · exact Or.inl ⟨e, t, lookupA_filter_pos _ seen0 it.link e hl
        (keepSeen_of_window now t it.link e hfs ht), hfs, ht⟩
  · simp only [runOnce, if_neg hc] at hit ⊢
    rcases generateRssItems_mem _ _ it hit with ⟨a, ha, rfl⟩ | ⟨hex, hnotnew⟩
    · -- a freshly processed article: tracked with first_seen = now
      have hlink : (toFeedItem a).link ∈
          (classifyNew seen0 cands).map (fun c => c.link) := by
        rw [← processLoop_links f now (classifyNew seen0 cands) 0 seen0]
        exact List.mem_map.mpr ⟨a, ha, rfl⟩
      obtain ⟨e, hl, hfs⟩ := processLoop_seen_mem f now (classifyNew seen0 cands) 0 seen0
        (toFeedItem a).link hlink
      exact Or.inl ⟨e, now, lookupA_filter_pos _ _ _ e hl
        (keepSeen_of_window now now _ e hfs hnowfresh), hfs, hnowfresh⟩
    · -- a carried-over item: not among the new articles
      have hnotproc : ∀ c ∈ classifyNew seen0 cands, c.link ≠ it.link := by
        intro c hcm heq
        have : c.link ∈ ((processLoop f now (classifyNew seen0 cands) 0 seen0).1).map
            (fun a => a.link) := by
          rw [processLoop_links f now (classifyNew seen0 cands) 0 seen0]
          exact List.mem_map.mpr ⟨c, hcm, rfl⟩
        obtain ⟨a, ha, halink⟩ := List.mem_map.mp this
        exact hnotnew a ha (halink.trans heq)
      have hpres := processLoop_seen_notMem f now (classifyNew seen0 cands) 0 seen0
        it.link hnotproc
      have hkf := (List.mem_filter.mp hex).2
      rcases keepFresh_cases now seen0 it hkf with hnone | ⟨e, t, hl, hfs, ht⟩
      · refine Or.inr ⟨hnone, ?_⟩
        exact lookupA_filter_none _ _ it.link (hpres.trans hnone)
      · refine Or.inl ⟨e, t, ?_, hfs, ht⟩
        exact lookupA_filter_pos _ _ it.link e (hpres.trans hl)
          (keepSeen_of_window now t it.link e hfs ht)

/-- C2 (amended): every URL in the generated feed either appears in the
persisted tracking state with a `first_seen` timestamp, or entered the feed as
a carried-over item whose URL has no tracking record at all — neither before
the run nor after it (orphaned legacy entries are retained in the feed without
ever being tracked). -/
theorem claim2_feed_urls_tracked (now : Int) (seen0 : SeenState) (ex0 : List FeedItem)
    (cands : List Candidate) (f : String → Option ArticleData) (k : String)
    (hk : k ∈ ((runOnce now seen0 ex0 cands f).feed).map (fun it => it.link)) :
    (∃ e t, lookupA (runOnce now seen0 ex0 cands f).saved k = some e
        ∧ e.first_seen = some t)
      ∨ (lookupA seen0 k = none
          ∧ lookupA (runOnce now seen0 ex0 cands f).saved k = none) := by
  obtain ⟨it, hit, rfl⟩ := List.mem_map.mp hk
  rcases runOnce_feed_tracking now seen0 ex0 cands f it hit with
    ⟨e, t, hl, hfs, _⟩ | ⟨h0, hsaved⟩
  · exact Or.inl ⟨e, t, hl, hfs⟩
  · exact Or.inr ⟨h0, hsaved⟩

/-- C2 counterexample: with an empty listing, an empty tracking state, and a
prior feed holding the orphan item `zItem`, the output feed contains
`https://z` but the persisted tracking state has no entry for it — the claim
that every feed URL is tracked is false. -/
theorem claim2_counterexample :
    ¬ (∀ k, k ∈ ((runOnce 100000 [] [zItem] [] (fun _ => none)).feed).map (fun it => it.link) →
        ∃ e, lookupA ((runOnce 100000 [] [zItem] [] (fun _ => none)).saved) k = some e
          ∧ e.first_seen.isSome = true) := by
  intro h
  have hfeed : (runOnce 100000 [] [zItem] [] (fun _ => none)).feed = [zItem] := rfl
  obtain ⟨e, he, _⟩ := h "https://z"
    (by rw [hfeed]; exact List.mem_map.mpr ⟨zItem, List.mem_singleton_self zItem, rfl⟩)
  have hnone : lookupA ((runOnce 100000 [] [zItem] [] (fun _ => none)).saved) "https://z"
      = none := rfl
  rw [hnone] at he
  exact Option.noConfusion he

/-- Witness for C2 (amended) at a run with one new candidate. -/
theorem claim2_witness :
    (∃ e t, lookupA ((runOnce 100000 [] [] [wCand] (fun _ => none)).saved) wCand.link = some e
        ∧ e.first_seen = some t)
      ∨ (lookupA ([] : SeenState) wCand.link = none
          ∧ lookupA ((runOnce 100000 [] [] [wCand] (fun _ => none)).saved) wCand.link
              = none) := by
  have hfeed : (runOnce 100000 [] [] [wCand] (fun _ => none)).feed
      = [toFeedItem (placeholderArticle wCand 100000)] := rfl
  exact claim2_feed_urls_tracked 100000 [] [] [wCand] (fun _ => none) wCand.link
    (by rw [hfeed]
        exact List.mem_map.mpr ⟨toFeedItem (placeholderArticle wCand 100000),
          List.mem_singleton_self _, rfl⟩)

/-- C3 (amended): every item of the generated feed whose URL has a tracking
record carries a `first_seen` strictly inside the freshness window (3 hours);
items with no tracking record at all (orphaned carry-overs) are retained
regardless of their age. -/
theorem claim3_freshness (now : Int) (seen0 : SeenState) (ex0 : List FeedItem)
    (cands : List Candidate) (f : String → Option ArticleData) (it : FeedItem)
    (hit : it ∈ (runOnce now seen0 ex0 cands f).feed) :
    (∃ e t, lookupA (runOnce now seen0 ex0 cands f).saved it.link = some e
        ∧ e.first_seen = some t ∧ now - FEED_MAX_AGE_MINUTES < t)
      ∨ (lookupA seen0 it.link = none
          ∧ lookupA (runOnce now seen0 ex0 cands f).saved it.link = none) :=
  runOnce_feed_tracking now seen0 ex0 cands f it hit

/-- C3 counterexample: the orphan prior-feed item `zItem` (1000 minutes old,
far beyond the 3-hour window, with no tracking record) still appears in the
output feed, so the claim that no feed item is older than the freshness window
is false. -/
theorem claim3_counterexample :
    ¬ (∀ it ∈ (runOnce 100000 [] [zItem] [] (fun _ => none)).feed,
        itemWithinWindow 100000 [] it = true) := by
  intro h
  exact absurd (h zItem (by decide)) (by decide)

/-- Witness for C3 (amended) at a run carrying over a freshly tracked item. -/
theorem claim3_witness :
    (∃ e t, lookupA ((runOnce 100000 aSeen [aItem] [] (fun _ => none)).saved) aItem.link
          = some e ∧ e.first_seen = some t ∧ 100000 - FEED_MAX_AGE_MINUTES < t)
      ∨ (lookupA aSeen aItem.link = none
          ∧ lookupA ((runOnce 100000 aSeen [aItem] [] (fun _ => none)).saved) aItem.link
              = none) := by
  have hfeed : (runOnce 100000 aSeen [aItem] [] (fun _ => none)).feed = [aItem] := rfl
  exact claim3_freshness 100000 aSeen [aItem] [] (fun _ => none) aItem
    (by rw [hfeed]; exact List.mem_singleton_self aItem)

/- ======================================================================
   Idempotence of an immediately repeated run (C4).
   ====================================================================== -/

theorem runOnce_empty_feed (now : Int) (seen0 : SeenState) (ex0 : List FeedItem)
    (f : String → Option ArticleData) :
    (runOnce now seen0 ex0 [] f).feed = freshExisting now seen0 ex0 := by
  simp [runOnce, generateRssItems_nil]

theorem runOnce_empty_newLinks (now : Int) (seen0 : SeenState) (ex0 : List FeedItem)
    (f : String → Option ArticleData) :
    (runOnce now seen0 ex0 [] f).newLinks = [] := by
  simp [runOnce]

theorem runOnce_nonempty_feed (now : Int) (seen0 : SeenState) (ex0 : List FeedItem)
    (cands : List Candidate) (f : String → Option ArticleData) (h : cands ≠ []) :
    (runOnce now seen0 ex0 cands f).feed
      = generateRssItems (processLoop f now (classifyNew seen0 cands) 0 seen0).1
          (freshExisting now seen0 ex0) := by
  simp [runOnce, h]

theorem runOnce_nonempty_newLinks (now : Int) (seen0 : SeenState) (ex0 : List FeedItem)
    (cands : List Candidate) (f : String → Option ArticleData) (h : cands ≠ []) :
    (runOnce now seen0 ex0 cands f).newLinks
      = (classifyNew seen0 cands).map (fun c => c.link) := by
  simp [runOnce, h]

/-- Every listing candidate is tracked after a run, provided its prior entry
(if any) is strictly inside the retention window. -/
theorem runOnce_saved_covers (now : Int) (seen0 : SeenState) (ex0 : List FeedItem)
    (cands : List Candidate) (f : String → Option ArticleData)
    (H : ∀ c ∈ cands, ∀ e, lookupA seen0 c.link = some e →
        ∃ t, e.first_seen = some t ∧ now - SEEN_MAX_AGE_MINUTES < t) :
    ∀ c ∈ cands, ∃ e2, lookupA (runOnce now seen0 ex0 cands f).saved c.link = some e2 := by
  intro c hc
  by_cases hcands : cands = []
  · subst hcands
    exact absurd hc (List.not_mem_nil c)
  · simp only [runOnce, if_neg hcands]
    cases hl : lookupA seen0 c.link with
    | none =>
      have hmem : c ∈ classifyNew seen0 cands := (mem_classifyNew _ _ _).mpr ⟨hc, hl⟩
      have hlink : c.link ∈ (classifyNew seen0 cands).map (fun c => c.link) :=
        List.mem_map.mpr ⟨c, hmem, rfl⟩
      obtain ⟨e, hle, hfs⟩ :=
        processLoop_seen_mem f now (classifyNew seen0 cands) 0 seen0 c.link hlink
      refine ⟨e, lookupA_filter_pos _ _ _ e hle ?_⟩
      refine (keepSeen_iff now (c.link, e)).mpr ⟨now, hfs, ?_⟩
      simp only [SEEN_MAX_AGE_MINUTES]
      omega
    | some e =>
      obtain ⟨t, hfs, ht⟩ := H c hc e hl
      have hnot : ∀ c2 ∈ classifyNew seen0 cands, c2.link ≠ c.link := by
        intro c2 hc2 heq
        have h2 := ((mem_classifyNew seen0 cands c2).mp hc2).2
        rw [heq, hl] at h2
        exact Option.noConfusion h2
      have hpres := processLoop_seen_notMem f now (classifyNew seen0 cands) 0 seen0 c.link hnot
      exact ⟨e, lookupA_filter_pos _ _ _ e (hpres.trans hl)
        ((keepSeen_iff now (c.link, e)).mpr ⟨t, hfs, ht⟩)⟩

/-- After a run, every feed item passes the next run's freshness filter. -/
theorem runOnce_feed_keepAll (now : Int) (seen0 : SeenState) (ex0 : List FeedItem)
    (cands : List Candidate) (f : String → Option ArticleData) :
    freshExisting now (runOnce now seen0 ex0 cands f).saved (runOnce now seen0 ex0 cands f).feed
      = (runOnce now seen0 ex0 cands f).feed := by
  unfold freshExisting
  rw [List.filter_eq_self]
  intro it hit
  rcases runOnce_feed_tracking now seen0 ex0 cands f it hit with ⟨e, t, hl, hfs, ht⟩ | ⟨_, hnone⟩
  · exact keepFresh_of_entry now _ it e t hl hfs ht
  · exact keepFresh_of_none now _ it hnone

theorem runOnce_empty_saved (now : Int) (seen0 : SeenState) (ex0 : List FeedItem)
    (f : String → Option ArticleData) :
    (runOnce now seen0 ex0 [] f).saved = save_seen_articles now seen0 := by
  simp [runOnce]

theorem runOnce_nonempty_saved (now : Int) (seen0 : SeenState) (ex0 : List FeedItem)
    (cands : List Candidate) (f : String → Option ArticleData) (h : cands ≠ []) :
    (runOnce now seen0 ex0 cands f).saved
      = save_seen_articles now (processLoop f now (classifyNew seen0 cands) 0 seen0).2 := by
  simp [runOnce, h]

theorem save_seen_idem (now : Int) (s : SeenState) :
    save_seen_articles now (save_seen_articles now s) = save_seen_articles now s := by
  unfold save_seen_articles
  rw [List.filter_eq_self]
  intro a ha
  exact (List.mem_filter.mp ha).2

theorem runOnce_saved_eq_save (now : Int) (seen0 : SeenState) (ex0 : List FeedItem)
    (cands : List Candidate) (f : String → Option ArticleData) :
    ∃ s1, (runOnce now seen0 ex0 cands f).saved = save_seen_articles now s1 := by
  by_cases h : cands = []
  · subst h
    exact ⟨seen0, runOnce_empty_saved now seen0 ex0 f⟩
  · exact ⟨_, runOnce_nonempty_saved now seen0 ex0 cands f h⟩

/-- C4 (amended): an immediately repeated run with the same candidates
classifies nothing as new and persists an unchanged tracking state — whatever
prior-feed items the second run reads back from the emitted feed file (its
prior-feed input is universally quantified) — provided every candidate already
tracked before the first run has a `first_seen` strictly inside the retention
window (entries at or beyond the 30-day cutoff are purged by the first run's
save and are re-classified as new — see the counterexample).  The carried-over
feed items themselves are not asserted to be preserved: recovering them from
the emitted XML escapes their URLs (see the C7 counterexample). -/
theorem claim4_idempotent (now : Int) (seen0 : SeenState) (ex0 ex2 : List FeedItem)
    (cands : List Candidate) (f g : String → Option ArticleData)
    (H : ∀ c ∈ cands, ∀ e, lookupA seen0 c.link = some e →
        ∃ t, e.first_seen = some t ∧ now - SEEN_MAX_AGE_MINUTES < t) :
    (runOnce now (runOnce now seen0 ex0 cands f).saved ex2 cands g).newLinks = []
      ∧ (runOnce now (runOnce now seen0 ex0 cands f).saved ex2 cands g).saved
          = (runOnce now seen0 ex0 cands f).saved := by
  obtain ⟨s1, hs1⟩ := runOnce_saved_eq_save now seen0 ex0 cands f
  by_cases hcands : cands = []
  · subst hcands
    refine ⟨runOnce_empty_newLinks now _ _ g, ?_⟩
    rw [runOnce_empty_saved now _ ex2 g, hs1, save_seen_idem]
  · have hclass : classifyNew (runOnce now seen0 ex0 cands f).saved cands = [] := by
      rw [classifyNew, List.filter_eq_nil_iff]
      intro c hc
      obtain ⟨e2, he2⟩ := runOnce_saved_covers now seen0 ex0 cands f H c hc
      simp [he2]
    constructor
    · rw [runOnce_nonempty_newLinks _ _ _ _ _ hcands, hclass]
      rfl
    · rw [runOnce_nonempty_saved _ _ _ _ _ hcands, hclass]
      rw [show (processLoop g now [] 0 (runOnce now seen0 ex0 cands f).saved).2
          = (runOnce now seen0 ex0 cands f).saved from rfl]
      rw [hs1, save_seen_idem]

/-- C4 counterexample: with candidate `c4cand` still on the listing and its
tracking entry sitting exactly at the retention cutoff (`first_seen =
now - 43200`), the first run purges the entry at save time, so the immediately
repeated run classifies the same URL as new — the unconditional zero-new claim
is false. -/
theorem claim4_counterexample :
    (runOnce 100000 (runOnce 100000 c4seen [] [c4cand] (fun _ => none)).saved
        (runOnce 100000 c4seen [] [c4cand] (fun _ => none)).feed
        [c4cand] (fun _ => none)).newLinks ≠ [] := by
  decide

/- ======================================================================
   Substring machinery (leftmost matching) for the GUID round-trip (C7).
   ====================================================================== -/

theorem isPrefixOf_append_self : ∀ (l r : List Char), l.isPrefixOf (l ++ r) = true := by
  intro l
  induction l with
  | nil => intro r; simp [List.isPrefixOf]
  | cons p pt ih => intro r; simp [List.isPrefixOf, ih]

theorem isPrefixOf_append_of_le :
    ∀ (pat s t : List Char), pat.length ≤ s.length →
      pat.isPrefixOf (s ++ t) = pat.isPrefixOf s := by
  intro pat
  induction pat with
  | nil => intro s t _; simp [List.isPrefixOf]
  | cons p pt ih =>
    intro s t hl
    cases s with
    | nil => simp at hl
    | cons c cs =>
      rw [List.cons_append]
      simp only [List.isPrefixOf]
      rw [ih cs t (by simpa using hl)]

theorem skipOkB_of_head (p : Char) (pt x tail : List Char) (h : ∀ c ∈ x, c ≠ p) :
    SkipOkB (p :: pt) x tail := by
  intro s hs hne hpre
  cases s with
  | nil => exact hne rfl
  | cons c s2 =>
    have hc : c ∈ x := hs.sublist.subset (List.mem_cons_self c s2)
    rw [List.cons_append] at hpre
    simp only [List.isPrefixOf, Bool.and_eq_true, beq_iff_eq] at hpre
    exact h c hc hpre.1.symm

theorem skipOkB_append (pat x y tail : List Char) (hx : SkipOkB pat x (y ++ tail))
    (hy : SkipOkB pat y tail) : SkipOkB pat (x ++ y) tail := by
  induction x with
  | nil => simpa using hy
  | cons c x2 ih =>
    intro s hs hne hpre
    rw [List.cons_append] at hs
    rcases List.suffix_cons_iff.mp hs with rfl | hs2
    · refine hx (c :: x2) (List.suffix_refl _) (by simp) ?_
      simpa [List.append_assoc] using hpre
    · have hx2 : SkipOkB pat x2 (y ++ tail) :=
        fun s3 hs3 hne3 => hx s3 (List.suffix_cons_iff.mpr (Or.inr hs3)) hne3
      exact ih hx2 s hs2 hne hpre

theorem skipOkB_concrete (pat x : List Char)
    (h1 : ∀ s ∈ x.tails, pat.length ≤ s.length → pat.isPrefixOf s = false)
    (h2 : ∀ s ∈ x.tails, s.length < pat.length → s.head? ≠ pat.head?) :
    ∀ tail, SkipOkB pat x tail := by
  intro tail s hs hne hpre
  have hst : s ∈ x.tails := (List.mem_tails s x).mpr hs
  by_cases hl : pat.length ≤ s.length
  · rw [isPrefixOf_append_of_le pat s tail hl, h1 s hst hl] at hpre
    exact Bool.noConfusion hpre
  · push_neg at hl
    cases s with
    | nil => exact hne rfl
    | cons c s2 =>
      cases hp : pat with
      | nil => rw [hp] at hl; simp at hl
      | cons p pt =>
        rw [hp, List.cons_append] at hpre
        simp only [List.isPrefixOf, Bool.and_eq_true, beq_iff_eq] at hpre
        exact absurd (by simp [hp, hpre.1] : (c :: s2).head? = pat.head?) (h2 (c :: s2) hst hl)

theorem findSplit_skip (pat x tail : List Char) (h : SkipOkB pat x tail) :
    findSplit pat (x ++ tail) = (findSplit pat tail).map (fun p => (x ++ p.1, p.2)) := by
  induction x with
  | nil =>
    simp only [List.nil_append]
    cases findSplit pat tail <;> simp
  | cons c x2 ih =>
    rw [List.cons_append]
    have hnp : ¬ (pat.isPrefixOf (c :: (x2 ++ tail)) = true) := by
      have h2 := h (c :: x2) (List.suffix_refl _) (by simp)
      simpa [List.cons_append] using h2
    simp only [findSplit]
    rw [if_neg hnp]
    rw [ih (fun s hs hne => h s (List.suffix_cons_iff.mpr (Or.inr hs)) hne)]
    cases findSplit pat tail <;> simp

theorem findSplit_self (pat r : List Char) (hne : pat ≠ []) :
    findSplit pat (pat ++ r) = some ([], r) := by
  cases pat with
  | nil => exact absurd rfl hne
  | cons p pt =>
    have hpre := isPrefixOf_append_self (p :: pt) r
    rw [List.cons_append] at hpre ⊢
    simp only [findSplit]
    rw [if_pos hpre]
    simp [List.drop_succ_cons, List.drop_left]

theorem escChar_no_angle (d c : Char) (hc : c ∈ escChar d) :
    c ≠ Char.ofNat 60 ∧ c ≠ Char.ofNat 62 := by
  unfold escChar at hc
  by_cases h38 : d = Char.ofNat 38
  · rw [if_pos h38] at hc
    exact (by decide : ∀ x ∈ "&amp;".data, x ≠ Char.ofNat 60 ∧ x ≠ Char.ofNat 62) c hc
  rw [if_neg h38] at hc
  by_cases h60 : d = Char.ofNat 60
  · rw [if_pos h60] at hc
    exact (by decide : ∀ x ∈ "&lt;".data, x ≠ Char.ofNat 60 ∧ x ≠ Char.ofNat 62) c hc
  rw [if_neg h60] at hc
  by_cases h62 : d = Char.ofNat 62
  · rw [if_pos h62] at hc
    exact (by decide : ∀ x ∈ "&gt;".data, x ≠ Char.ofNat 60 ∧ x ≠ Char.ofNat 62) c hc
  rw [if_neg h62] at hc
  by_cases h34 : d = Char.ofNat 34
  · rw [if_pos h34] at hc
    exact (by decide : ∀ x ∈ "&quot;".data, x ≠ Char.ofNat 60 ∧ x ≠ Char.ofNat 62) c hc
  rw [if_neg h34] at hc
  by_cases h39 : d = Char.ofNat 39
  · rw [if_pos h39] at hc
    exact (by decide : ∀ x ∈ "&#x27;".data, x ≠ Char.ofNat 60 ∧ x ≠ Char.ofNat 62) c hc
  rw [if_neg h39] at hc
  have hcd : c = d := by simpa using hc
  subst hcd
  exact ⟨h60, h62⟩

theorem htmlEscapeL_no_angle :
    ∀ (cs : List Char) (c : Char), c ∈ htmlEscapeL cs →
      c ≠ Char.ofNat 60 ∧ c ≠ Char.ofNat 62 := by
  intro cs
  induction cs with
  | nil => intro c hc; simp [htmlEscapeL] at hc
  | cons d ds ih =>
    intro c hc
    have hc2 : c ∈ escChar d ++ htmlEscapeL ds := hc
    rcases List.mem_append.mp hc2 with hc3 | hc3
    · exact escChar_no_angle d c hc3
    · exact ih c hc3

theorem htmlEscape_no_angle (s : String) (c : Char) (hc : c ∈ (htmlEscape s).data) :
    c ≠ Char.ofNat 60 ∧ c ≠ Char.ofNat 62 :=
  htmlEscapeL_no_angle s.data c hc

/-- The guid extraction on a serialized item decomposed into its parts: the
recovered text is exactly the (escaped) guid that was written, whatever
follows the closing tag. -/
theorem extractGuidL_parts (title escLink escGuid R : List Char)
    (htitle : ∀ c ∈ title, c ≠ Char.ofNat 60)
    (hlink : ∀ c ∈ escLink, c ≠ Char.ofNat 60)
    (hguid : ∀ c ∈ escGuid, c ≠ Char.ofNat 60) :
    extractGuidL ("    <item>\n      <title><![CDATA[".data ++ (title
      ++ ("]]></title>\n      <link>".data ++ (escLink ++ ("</link>\n      ".data
      ++ ("<guid".data ++ (" isPermaLink=\"true\"".data ++ (">".data
      ++ (escGuid ++ ("</guid>".data ++ R)))))))))) = some escGuid := by
  have hpatg : "<guid".data = Char.ofNat 60 :: "guid".data := rfl
  have hpatgt : ">".data = Char.ofNat 62 :: "".data := rfl
  have hpatge : "</guid>".data = Char.ofNat 60 :: "/guid>".data := rfl
  have hP1 : ∀ tl, SkipOkB "<guid".data "    <item>\n      <title><![CDATA[".data tl :=
    skipOkB_concrete _ _ (by decide) (by decide)
  have hP2 : ∀ tl, SkipOkB "<guid".data "]]></title>\n      <link>".data tl :=
    skipOkB_concrete _ _ (by decide) (by decide)
  have hP3 : ∀ tl, SkipOkB "<guid".data "</link>\n      ".data tl :=
    skipOkB_concrete _ _ (by decide) (by decide)
  have htit : ∀ tl, SkipOkB "<guid".data title tl := by
    intro tl
    rw [hpatg]
    exact skipOkB_of_head _ _ title tl htitle
  have hlnk : ∀ tl, SkipOkB "<guid".data escLink tl := by
    intro tl
    rw [hpatg]
    exact skipOkB_of_head _ _ escLink tl hlink
  have hP5 : ∀ tl, SkipOkB ">".data " isPermaLink=\"true\"".data tl := by
    intro tl
    rw [hpatgt]
    exact skipOkB_of_head _ _ _ tl (by decide)
  have hgd : ∀ tl, SkipOkB "</guid>".data escGuid tl := by
    intro tl
    rw [hpatge]
    exact skipOkB_of_head _ _ escGuid tl hguid
  unfold extractGuidL
  rw [findSplit_skip _ _ _ (hP1 _), findSplit_skip _ _ _ (htit _),
    findSplit_skip _ _ _ (hP2 _), findSplit_skip _ _ _ (hlnk _),
    findSplit_skip _ _ _ (hP3 _), findSplit_self _ _ (by decide)]
  simp only [Option.map_some']
  rw [findSplit_skip _ _ _ (hP5 _), findSplit_self _ _ (by decide)]
  simp only [Option.map_some']
  rw [findSplit_skip _ _ _ (hgd _), findSplit_self _ _ (by decide)]
  simp

/-- C7 (amended): a newly built item's GUID is its link when a link is
present, with the md5 content-hash fallback only when the link is absent; a
GUID recovered from the prior feed file is the HTML-escaped text that was
written, so re-running yields the same GUID exactly when the stored GUID is
untouched by escaping (no `&`, `<`, `>`, quotes) and by stripping, and the
title contains no raw `<`. -/
theorem claim7_guid_stability (md5hex : String → String) (lnk ttl fallback : String)
    (it : RItem)
    (hesc : htmlEscape it.guid = it.guid)
    (htrim : pyStrip it.guid = it.guid)
    (htitle : ∀ c ∈ it.title.data, c ≠ Char.ofNat 60) :
    articleGuid md5hex (some lnk) ttl = lnk
      ∧ articleGuid md5hex none ttl = md5hex ttl
      ∧ loadItemGuid (serializeItem it) fallback = it.guid := by
  refine ⟨rfl, rfl, ?_⟩
  have hdata : (serializeItem it).data
      = "    <item>\n      <title><![CDATA[".data ++ (it.title.data
        ++ ("]]></title>\n      <link>".data ++ ((htmlEscape it.link).data
        ++ ("</link>\n      ".data ++ ("<guid".data ++ (" isPermaLink=\"true\"".data
        ++ (">".data ++ ((htmlEscape it.guid).data ++ ("</guid>".data
        ++ (itemTail it).data))))))))) := by
    simp only [serializeItem, String.data_append, List.append_assoc]
  unfold loadItemGuid extractGuid
  rw [hdata, extractGuidL_parts it.title.data (htmlEscape it.link).data
    (htmlEscape it.guid).data _ htitle
    (fun c hc => (htmlEscape_no_angle it.link c hc).1)
    (fun c hc => (htmlEscape_no_angle it.guid c hc).1)]
  show pyStrip (htmlEscape it.guid) = it.guid
  rw [hesc, htrim]

/- ======================================================================
   CDATA well-formedness scan (C8).
   ====================================================================== -/

theorem scanList_append (st : ScanState) (x y : List Char) :
    scanList st (x ++ y) = scanList (scanList st x) y :=
  List.foldl_append _ _ _ _

theorem scanStr_append (st : ScanState) (a b : String) :
    scanList st (a ++ b).data = scanList (scanList st a.data) b.data := by
  rw [String.data_append, scanList_append]

theorem string_foldl_append (l : List String) :
    ∀ (a : String), l.foldl (fun x y => x ++ y) a = a ++ l.foldl (fun x y => x ++ y) "" := by
  induction l with
  | nil => intro a; simp [String.append_empty]
  | cons t rest ih =>
    intro a
    rw [List.foldl_cons, List.foldl_cons, String.empty_append, ih (a ++ t), ih t,
      String.append_assoc]

theorem string_join_cons (s : String) (l : List String) :
    String.join (s :: l) = s ++ String.join l := by
  show (s :: l).foldl (fun x y => x ++ y) "" = s ++ l.foldl (fun x y => x ++ y) ""
  rw [List.foldl_cons, String.empty_append, string_foldl_append]

theorem containsPat_of_prefix (pat s : List Char) (h : pat.isPrefixOf s = true) :
    containsPat pat s = true := by
  unfold containsPat
  cases s with
  | nil => simp [findSplit, h]
  | cons c cs => simp [findSplit, h]

theorem containsPat_cons_of (pat cs : List Char) (c : Char)
    (h : containsPat pat cs = true) : containsPat pat (c :: cs) = true := by
  unfold containsPat at h ⊢
  simp only [findSplit]
  by_cases hp : pat.isPrefixOf (c :: cs) = true
  · rw [if_pos hp]; rfl
  · rw [if_neg hp]; simpa using h

theorem containsPat_tail_false (pat cs : List Char) (c : Char)
    (h : containsPat pat (c :: cs) = false) : containsPat pat cs = false := by
  cases hcp : containsPat pat cs
  · rfl
  · rw [containsPat_cons_of pat cs c hcp] at h
    exact Bool.noConfusion h

theorem stepT0_TS (c : Char) (h60 : c ≠ Char.ofNat 60) : TState (stepT0 c) := by
  unfold stepT0
  rw [if_neg h60]
  by_cases h93 : c = Char.ofNat 93
  · rw [if_pos h93]; exact Or.inr (Or.inl rfl)
  · rw [if_neg h93]; exact Or.inl rfl

theorem scanStep_TS (st : ScanState) (c : Char) (hst : TState st)
    (h60 : c ≠ Char.ofNat 60) (h62 : c ≠ Char.ofNat 62) : TState (scanStep st c) := by
  rcases hst with rfl | rfl | rfl
  · exact stepT0_TS c h60
  · show TState (if c = Char.ofNat 93 then ScanState.t2 else stepT0 c)
    by_cases h93 : c = Char.ofNat 93
    · rw [if_pos h93]; exact Or.inr (Or.inr rfl)
    · rw [if_neg h93]; exact stepT0_TS c h60
  · show TState (if c = Char.ofNat 62 then ScanState.dead
        else if c = Char.ofNat 93 then ScanState.t2 else stepT0 c)
    rw [if_neg h62]
    by_cases h93 : c = Char.ofNat 93
    · rw [if_pos h93]; exact Or.inr (Or.inr rfl)
    · rw [if_neg h93]; exact stepT0_TS c h60

theorem scanList_text (cs : List Char)
    (h : ∀ c ∈ cs, c ≠ Char.ofNat 60 ∧ c ≠ Char.ofNat 62) :
    ∀ st, TState st → TState (scanList st cs) := by
  induction cs with
  | nil => intro st hst; exact hst
  | cons c cs2 ih =>
    intro st hst
    show TState (scanList (scanStep st c) cs2)
    exact ih (fun d hd => h d (List.mem_cons_of_mem _ hd)) _
      (scanStep_TS st c hst (h c (List.mem_cons_self _ _)).1 (h c (List.mem_cons_self _ _)).2)

theorem scanList_cdata : ∀ (cs : List Char) (st : ScanState), CState st →
    containsPat "]]>".data (cpad st ++ cs) = false → CState (scanList st cs) := by
  intro cs
  induction cs with
  | nil => intro st hst _; exact hst
  | cons c cs2 ih =>
    intro st hst h
    show CState (scanList (scanStep st c) cs2)
    rcases hst with rfl | rfl | rfl
    · by_cases h93 : c = Char.ofNat 93
      · have hstep : scanStep ScanState.c0 c = ScanState.c1 := by simp [scanStep, h93]
        rw [hstep]
        refine ih ScanState.c1 (Or.inr (Or.inl rfl)) ?_
        have hl : cpad ScanState.c1 ++ cs2 = cpad ScanState.c0 ++ (c :: cs2) := by
          simp [cpad, h93]
        rw [hl]
        exact h
      · have hstep : scanStep ScanState.c0 c = ScanState.c0 := by simp [scanStep, h93]
        rw [hstep]
        refine ih ScanState.c0 (Or.inl rfl) ?_
        have h2 : containsPat "]]>".data (c :: cs2) = false := by simpa [cpad] using h
        simpa [cpad] using containsPat_tail_false _ _ _ h2
    · by_cases h93 : c = Char.ofNat 93
      · have hstep : scanStep ScanState.c1 c = ScanState.c2 := by simp [scanStep, h93]
        rw [hstep]
        refine ih ScanState.c2 (Or.inr (Or.inr rfl)) ?_
        have hl : cpad ScanState.c2 ++ cs2 = cpad ScanState.c1 ++ (c :: cs2) := by
          simp [cpad, h93]
        rw [hl]
        exact h
      · have hstep : scanStep ScanState.c1 c = ScanState.c0 := by simp [scanStep, h93]
        rw [hstep]
        refine ih ScanState.c0 (Or.inl rfl) ?_
        have h2 : containsPat "]]>".data (c :: cs2) = false := by
          have h1 : containsPat "]]>".data (Char.ofNat 93 :: (c :: cs2)) = false := by
            simpa [cpad] using h
          exact containsPat_tail_false _ _ _ h1
        simpa [cpad] using containsPat_tail_false _ _ _ h2
    · by_cases h62 : c = Char.ofNat 62
      · exfalso
        subst h62
        have hpre : ("]]>".data).isPrefixOf
            (cpad ScanState.c2 ++ (Char.ofNat 62 :: cs2)) = true := by
          simp [cpad, List.isPrefixOf]
        have htrue := containsPat_of_prefix _ _ hpre
        rw [htrue] at h
        exact Bool.noConfusion h
      · by_cases h93 : c = Char.ofNat 93
        · have hstep : scanStep ScanState.c2 c = ScanState.c2 := by simp [scanStep, h62, h93]
          rw [hstep]
          refine ih ScanState.c2 (Or.inr (Or.inr rfl)) ?_
          have h1 : containsPat "]]>".data
              (Char.ofNat 93 :: (Char.ofNat 93 :: (Char.ofNat 93 :: cs2))) = false := by
            simpa [cpad, h93] using h
          simpa [cpad] using containsPat_tail_false _ _ _ h1
        · have hstep : scanStep ScanState.c2 c = ScanState.c0 := by simp [scanStep, h62, h93]
          rw [hstep]
          refine ih ScanState.c0 (Or.inl rfl) ?_
          have h1 : containsPat "]]>".data (Char.ofNat 93 :: (Char.ofNat 93 :: (c :: cs2)))
              = false := by simpa [cpad] using h
          have h2 := containsPat_tail_false _ _ _ h1
          have h3 := containsPat_tail_false _ _ _ h2
          simpa [cpad] using containsPat_tail_false _ _ _ h3

theorem hscItemOpen :
    scanList ScanState.t0 ("    <item>\n      <title><![CDATA[" : String).data
      = ScanState.c0 := by decide

theorem hscTitleClose : ∀ st, CState st →
    scanList st ("]]></title>\n      <link>" : String).data = ScanState.t0 := by
  intro st h
  rcases h with rfl | rfl | rfl <;> decide

theorem hscLinkClose : ∀ st, TState st →
    scanList st ("</link>\n      " : String).data = ScanState.t0 := by
  intro st h
  rcases h with rfl | rfl | rfl <;> decide

theorem hscGuidOpen : scanList ScanState.t0 ("<guid" : String).data = ScanState.t0 := by
  decide

theorem hscPerma :
    scanList ScanState.t0 (" isPermaLink=\"true\"" : String).data = ScanState.t0 := by
  decide

theorem hscGtChar : scanList ScanState.t0 (">" : String).data = ScanState.t0 := by decide

theorem hscGuidClose : ∀ st, TState st →
    scanList st ("</guid>" : String).data = ScanState.t0 := by
  intro st h
  rcases h with rfl | rfl | rfl <;> decide

theorem hscPubOpen :
    scanList ScanState.t0 ("\n      <pubDate>" : String).data = ScanState.t0 := by decide

theorem hscPubClose : ∀ st, TState st →
    scanList st ("</pubDate>\n" : String).data = ScanState.t0 := by
  intro st h
  rcases h with rfl | rfl | rfl <;> decide

theorem hscCatOpen :
    scanList ScanState.t0 ("      <category><![CDATA[" : String).data = ScanState.c0 := by
  decide

theorem hscCatClose : ∀ st, CState st →
    scanList st ("]]></category>\n" : String).data = ScanState.t0 := by
  intro st h
  rcases h with rfl | rfl | rfl <;> decide

theorem hscMediaOpen :
    scanList ScanState.t0 ("      <media:content url=\"" : String).data = ScanState.t0 := by
  decide

theorem hscMediaClose : ∀ st, TState st →
    scanList st ("\" medium=\"image\" />\n" : String).data = ScanState.t0 := by
  intro st h
  rcases h with rfl | rfl | rfl <;> decide

theorem hscDescOpen :
    scanList ScanState.t0 ("      <description><![CDATA[" : String).data = ScanState.c0 := by
  decide

theorem hscDescClose : ∀ st, CState st →
    scanList st ("]]></description>\n" : String).data = ScanState.t0 := by
  intro st h
  rcases h with rfl | rfl | rfl <;> decide

theorem hscContOpen :
    scanList ScanState.t0 ("      <content:encoded><![CDATA[" : String).data
      = ScanState.c0 := by decide

theorem hscContClose : ∀ st, CState st →
    scanList st ("]]></content:encoded>\n" : String).data = ScanState.t0 := by
  intro st h
  rcases h with rfl | rfl | rfl <;> decide

theorem hscItemClose :
    scanList ScanState.t0 ("    </item>\n" : String).data = ScanState.t0 := by decide

set_option maxRecDepth 16384 in
theorem hscHdrPrefix : scanList ScanState.t0 rssHeaderPrefix.data = ScanState.t0 := by
  decide

theorem hscHdrSuffix : ∀ st, TState st →
    scanList st rssHeaderSuffix.data = ScanState.t0 := by
  intro st h
  rcases h with rfl | rfl | rfl <;> decide

theorem hscFooter :
    scanList ScanState.t0 ("  </channel>\n</rss>" : String).data = ScanState.t0 := by
  decide

/-- Scanning one serialized item from neutral text returns to neutral text,
provided the CDATA-carried fields contain no `]]>` and the pubDate string has
no angle brackets. -/
theorem scanItem (it : RItem)
    (ht : containsPat "]]>".data it.title.data = false)
    (hcats : ∀ cat ∈ it.categories, containsPat "]]>".data cat.data = false)
    (hd : containsPat "]]>".data it.description_html.data = false)
    (hpd : ∀ c ∈ it.pubDateStr.data, c ≠ Char.ofNat 60 ∧ c ≠ Char.ofNat 62) :
    scanList ScanState.t0 (serializeItem it).data = ScanState.t0 := by
  have hjcats : ∀ (cats : List String),
      (∀ cat ∈ cats, containsPat "]]>".data cat.data = false) →
      scanList ScanState.t0 (String.join (cats.map serializeCategory)).data
        = ScanState.t0 := by
    intro cats
    induction cats with
    | nil => intro _; rfl
    | cons cat rest ih =>
      intro h
      rw [List.map_cons, string_join_cons, scanStr_append]
      have h1 : scanList ScanState.t0 (serializeCategory cat).data = ScanState.t0 := by
        unfold serializeCategory
        rw [scanStr_append, scanStr_append, hscCatOpen]
        have hc := scanList_cdata cat.data ScanState.c0 (Or.inl rfl)
          (by simpa [cpad] using h cat (List.mem_cons_self _ _))
        exact hscCatClose _ hc
      rw [h1]
      exact ih (fun c2 hc2 => h c2 (List.mem_cons_of_mem _ hc2))
  have htail : scanList ScanState.t0 (itemTail it).data = ScanState.t0 := by
    unfold itemTail
    rw [scanStr_append, scanStr_append, scanStr_append, scanStr_append, scanStr_append,
      scanStr_append, scanStr_append, scanStr_append, scanStr_append, scanStr_append,
      scanStr_append]
    rw [hscPubOpen]
    have s5 := scanList_text it.pubDateStr.data hpd ScanState.t0 (Or.inl rfl)
    rw [hscPubClose _ s5]
    rw [hjcats it.categories hcats]
    have s7 : scanList ScanState.t0
        (if it.image ≠ "" then
            "      <media:content url=\"" ++ htmlEscape it.image ++ "\" medium=\"image\" />\n"
          else "").data = ScanState.t0 := by
      by_cases him : it.image = ""
      · simp [him]
        rfl
      · rw [if_pos him]
        rw [scanStr_append, scanStr_append, hscMediaOpen]
        have s8 := scanList_text (htmlEscape it.image).data
          (fun c hc => htmlEscape_no_angle it.image c hc) ScanState.t0 (Or.inl rfl)
        rw [hscMediaClose _ s8]
    rw [s7]
    rw [hscDescOpen]
    have s9 := scanList_cdata it.description_html.data ScanState.c0 (Or.inl rfl)
      (by simpa [cpad] using hd)
    rw [hscDescClose _ s9]
    rw [hscContOpen]
    have s10 := scanList_cdata it.description_html.data ScanState.c0 (Or.inl rfl)
      (by simpa [cpad] using hd)
    rw [hscContClose _ s10]
    exact hscItemClose
  unfold serializeItem
  rw [scanStr_append, scanStr_append, scanStr_append, scanStr_append, scanStr_append,
    scanStr_append, scanStr_append, scanStr_append, scanStr_append, scanStr_append]
  rw [hscItemOpen]
  have s2 := scanList_cdata it.title.data ScanState.c0 (Or.inl rfl) (by simpa [cpad] using ht)
  rw [hscTitleClose _ s2]
  have s3 := scanList_text (htmlEscape it.link).data
    (fun c hc => htmlEscape_no_angle it.link c hc) ScanState.t0 (Or.inl rfl)
  rw [hscLinkClose _ s3]
  rw [hscGuidOpen, hscPerma, hscGtChar]
  have s4 := scanList_text (htmlEscape it.guid).data
    (fun c hc => htmlEscape_no_angle it.guid c hc) ScanState.t0 (Or.inl rfl)
  rw [hscGuidClose _ s4]
  exact htail

/-- C8 (amended): the serializer HTML-escapes the URL-valued fields (link,
guid, image) and the channel metadata, but writes title, category, and
description text verbatim inside CDATA sections; the produced document has a
sound CDATA structure (no stray `]]>` in character data, every CDATA section
terminated) provided those texts contain no `]]>` and the date strings carry
no angle brackets — it is not guaranteed for arbitrary input text. -/
theorem claim8_escaping (nowStr : String) (items : List RItem)
    (hnow : ∀ c ∈ nowStr.data, c ≠ Char.ofNat 60 ∧ c ≠ Char.ofNat 62)
    (hitems : ∀ it ∈ items,
        containsPat "]]>".data it.title.data = false
          ∧ (∀ cat ∈ it.categories, containsPat "]]>".data cat.data = false)
          ∧ containsPat "]]>".data it.description_html.data = false
          ∧ ∀ c ∈ it.pubDateStr.data, c ≠ Char.ofNat 60 ∧ c ≠ Char.ofNat 62) :
    wfCdataScan (generate_rss_xml nowStr items) = true := by
  unfold wfCdataScan generate_rss_xml
  rw [decide_eq_true_eq]
  rw [scanStr_append, scanStr_append]
  have hh : scanList ScanState.t0 (rssHeader nowStr).data = ScanState.t0 := by
    unfold rssHeader
    rw [scanStr_append, scanStr_append, hscHdrPrefix]
    exact hscHdrSuffix _ (scanList_text nowStr.data hnow ScanState.t0 (Or.inl rfl))
  rw [hh]
  have hj : ∀ (its : List RItem),
      (∀ it ∈ its,
        containsPat "]]>".data it.title.data = false
          ∧ (∀ cat ∈ it.categories, containsPat "]]>".data cat.data = false)
          ∧ containsPat "]]>".data it.description_html.data = false
          ∧ ∀ c ∈ it.pubDateStr.data, c ≠ Char.ofNat 60 ∧ c ≠ Char.ofNat 62) →
      scanList ScanState.t0 (String.join (its.map serializeItem)).data = ScanState.t0 := by
    intro its
    induction its with
    | nil => intro _; rfl
    | cons it rest ih =>
      intro h
      rw [List.map_cons, string_join_cons, scanStr_append]
      obtain ⟨h1, h2, h3, h4⟩ := h it (List.mem_cons_self _ _)
      rw [scanItem it h1 h2 h3 h4]
      exact ih (fun it2 hit2 => h it2 (List.mem_cons_of_mem _ hit2))
  rw [hj items hitems]
  exact hscFooter

set_option maxRecDepth 8192 in
/-- C8 counterexample: a title containing `]]>` is written into the CDATA
section verbatim, so the produced document has a stray `]]>` in character
data — the output is not well-formed XML, refuting the claim that all
user-derived text is escaped. -/
theorem claim8_counterexample :
    wfCdataScan (generate_rss_xml "Sun, 12 Oct 2025 10:00:00 +0700" [c8bad]) = false := by
  decide

/-- Witness for C8 (amended) at a benign concrete item. -/
theorem claim8_witness :
    wfCdataScan (generate_rss_xml "Sun, 12 Oct 2025 10:00:00 +0700" [c8good]) = true :=
  claim8_escaping "Sun, 12 Oct 2025 10:00:00 +0700" [c8good] (by decide) (by decide)

set_option maxRecDepth 8192 in
/-- C7 counterexample: for a link containing `&`, the GUID of the newly built
item is the raw link, but the GUID recovered from the emitted XML is the
HTML-escaped text (`&` became `&amp;`) — regeneration does not preserve the
GUID, so the unconditional stability claim is false. -/
theorem claim7_counterexample :
    articleGuid (fun _ => "") (some "https://disway.id/read/1?a=1&b=2") "T"
        = "https://disway.id/read/1?a=1&b=2"
      ∧ loadItemGuid (serializeItem c7item) "https://disway.id/read/1?a=1&b=2"
          ≠ "https://disway.id/read/1?a=1&b=2" := by
  constructor
  · rfl
  · have hval : loadItemGuid (serializeItem c7item) "https://disway.id/read/1?a=1&b=2"
        = "https://disway.id/read/1?a=1&amp;b=2" := by rfl
    rw [hval]
    decide

/-- Witness for C7 (amended) at an item whose guid is escape-invariant. -/
theorem claim7_witness :
    articleGuid (fun _ => "h") (some "https://disway.id/read/2/x") "T"
        = "https://disway.id/read/2/x"
      ∧ articleGuid (fun _ => "h") none "T" = "h"
      ∧ loadItemGuid (serializeItem c7good) "fb" = c7good.guid :=
  claim7_guid_stability (fun _ => "h") "https://disway.id/read/2/x" "T" "fb" c7good
    rfl rfl (by decide)

/-- Witness for C4 (amended) at a concrete state satisfying the retention
proviso (an empty tracking state). -/
theorem claim4_witness :
    (runOnce 100000 (runOnce 100000 [] [] [c4cand] (fun _ => none)).saved
        (runOnce 100000 [] [] [c4cand] (fun _ => none)).feed
        [c4cand] (fun _ => none)).newLinks = []
      ∧ (runOnce 100000 (runOnce 100000 [] [] [c4cand] (fun _ => none)).saved
          (runOnce 100000 [] [] [c4cand] (fun _ => none)).feed
          [c4cand] (fun _ => none)).saved = (runOnce 100000 [] [] [c4cand] (fun _ => none)).saved :=
  claim4_idempotent 100000 [] [] (runOnce 100000 [] [] [c4cand] (fun _ => none)).feed
    [c4cand] (fun _ => none) (fun _ => none)
    (by intro c hc e he; exact absurd he (by simp [lookupA]))


end Disway
